import Mathlib

/-!
# kvraft/server.go: the replicated key/value state machine

A shallow embedding of `src/kvraft/server.go`.  The three maps of `RaftKV`
are total functions into `Option` (a Go map: absent key = `none`).  A channel
`chan Op` of capacity one is the content of its buffer, `Option Op`.  Go's
`int` and `int64` are modelled by `Int`: the code only stores and compares
them.  The mutex makes each locked region one atomic step on the state.

A slot of `results`, once made, is never replaced (lines 72-75 and 170-173 both
test for absence first), so the channel a waiter holds is the slot of its index.
What lies outside the file is a parameter: the reply of `rf.Start`, the
committed messages read from `applyCh`, and which case of the `select` fires.
-/

namespace raftkv

/-! ## Data model -/

def OP_PUT : String := "Put"

def OP_APPEND : String := "Append"

def OP_GET : String := "Get"

/-- The command stored in the Raft log (`type Op struct`, lines 28-38). -/
structure Op where
  Kind : String
  Key : String
  Value : String
  SessionID : Int
  ReqID : Int
  deriving DecidableEq, Repr

/-- Modelled from the spec: `raft.ApplyMsg` is declared in package `raft`; the
spec gives the committed stream as pairs `(logIndex, command)`, and `Loop`
reads exactly `msg.Index` and `msg.Command.(Op)`. -/
structure ApplyMsg where
  Index : Int
  Command : Op
  deriving DecidableEq, Repr

/-- A `chan Op` made by `make(chan Op, 1)`: the buffer holds no command or one. -/
abbrev Chan := Option Op

/-- The shared fields of `type RaftKV struct` (lines 50-52). -/
structure RaftKV where
  data : String → Option String
  results : Int → Option Chan
  history : Int → Option Int

/-- Modelled from the spec: `GetArgs` is declared outside `server.go`; the spec
gives `Get(key, sessionID, requestID)` and `Get` reads these three fields. -/
structure GetArgs where
  Key : String
  SessionID : Int
  ReqID : Int
  deriving DecidableEq, Repr

/-- Modelled from the spec: `GetReply` is declared outside `server.go`; the spec
gives `{value, wrongLeader, status}` and `Get` writes these three fields. -/
structure GetReply where
  WrongLeader : Bool
  Err : String
  Value : String
  deriving DecidableEq, Repr

/-- Modelled from the spec: the constant `OK` is declared outside `server.go`;
the spec names the successful status `ok`. -/
def OK : String := "OK"

/-- Modelled from the spec: the reply of `rf.Start`, `submit(command) ->
(logIndex, term, isLeader)`. -/
structure StartReply where
  index : Int
  term : Int
  isLeader : Bool
  deriving DecidableEq, Repr

/-! ## Operations -/

/-- Go map read `m[k]` on a `map[string]string`: the zero value when absent. -/
def readStr (m : String → Option String) (k : String) : String :=
  match m k with
  | some v => v
  | none => ""

/-- Method `Init` (lines 143-148): three empty maps. -/
def Init : RaftKV :=
  { data := fun _ => none, results := fun _ => none, history := fun _ => none }

/-- Method `CheckDuplicate` (lines 55-61). -/
def CheckDuplicate (kv : RaftKV) (entry : Op) : Bool :=
  match kv.history entry.SessionID with
  | some id => decide (id ≥ entry.ReqID)
  | none => false

/-- Method `Apply` (lines 86-94). -/
def Apply (kv : RaftKV) (op : Op) : RaftKV :=
  let data :=
    if op.Kind = OP_PUT then
      Function.update kv.data op.Key (some op.Value)
    else if op.Kind = OP_APPEND then
      Function.update kv.data op.Key (some (readStr kv.data op.Key ++ op.Value))
    else kv.data
  { kv with data := data, history := Function.update kv.history op.SessionID (some op.ReqID) }

/-- Lines 157-159 of `Loop`: `if !kv.CheckDuplicate(op) { kv.Apply(op) }`. -/
def applyIfNew (kv : RaftKV) (op : Op) : RaftKV :=
  if CheckDuplicate kv op = false then Apply kv op else kv

/-- The non-blocking receive `select { case <-ch: default: }` (lines 165-168). -/
def chanDrain (ch : Chan) : Chan :=
  match ch with
  | some _ => none
  | none => none

/-- The send `ch <- op` on a channel of capacity one: `none` when the buffer is
full, where the sender blocks. -/
def chanSend (ch : Chan) (op : Op) : Option Chan :=
  match ch with
  | none => some (some op)
  | some _ => none

/-- Lines 161-173 of `Loop`: publish `op` to the slot of `msg.Index`. -/
def publish (kv : RaftKV) (msg : ApplyMsg) : Option RaftKV :=
  match kv.results msg.Index with
  | some ch =>
    match chanSend (chanDrain ch) msg.Command with
    | some ch1 => some { kv with results := Function.update kv.results msg.Index (some ch1) }
    | none => none
  | none => some { kv with results := Function.update kv.results msg.Index (some none) }

/-- One iteration of `Loop` (lines 152-175) on the message read from `applyCh`;
`none` when the iteration blocks. -/
def LoopStep (kv : RaftKV) (msg : ApplyMsg) : Option RaftKV :=
  publish (applyIfNew kv msg.Command) msg

/-- Method `Loop` (lines 150-177) on a finite sequence of committed messages. -/
def Loop : RaftKV → List ApplyMsg → Option RaftKV
  | kv, [] => some kv
  | kv, msg :: rest =>
    match LoopStep kv msg with
    | some kv1 => Loop kv1 rest
    | none => none

/-- Lines 70-76 of `AppendLogEntry`: look the slot of `index` up, make it when
absent. -/
def AppendLogEntry_slot (kv : RaftKV) (index : Int) : RaftKV :=
  match kv.results index with
  | some _ => kv
  | none => { kv with results := Function.update kv.results index (some none) }

/-- What the `select` of lines 78-83 ends with. -/
inductive Arrival where
  | delivered (op : Op)
  | timeout
  deriving DecidableEq, Repr

/-- The `select` of lines 78-83 on the slot of `index` in state `kv`: the timer
case when `timerFirst`, else the receive case when the buffer holds a command
(the buffer is emptied); with an empty buffer only the timer can end it. -/
def AppendLogEntry_select (kv : RaftKV) (index : Int) (timerFirst : Bool) : Arrival × RaftKV :=
  if timerFirst then (Arrival.timeout, kv)
  else
    match kv.results index with
    | some (some op) =>
      (Arrival.delivered op, { kv with results := Function.update kv.results index (some none) })
    | _ => (Arrival.timeout, kv)

/-- The value `AppendLogEntry` returns (lines 64-68 and 78-83), from the reply
of `rf.Start` and the outcome of the `select`. -/
def AppendLogEntry_result (entry : Op) (start : StartReply) (arr : Arrival) : Bool :=
  if start.isLeader = false then false
  else
    match arr with
    | Arrival.delivered op => decide (op = entry)
    | Arrival.timeout => false

/-- The environment of one call of `AppendLogEntry`: the reply of `rf.Start`,
the committed messages `Loop` processes between the slot lookup and the end of
the `select`, and whether the timer case is taken. -/
structure Env where
  start : StartReply
  commits : List ApplyMsg
  timerFirst : Bool

/-- Method `AppendLogEntry` (lines 63-84) in environment `env`: the returned boolean
and the state left behind; `none` when `Loop` blocks meanwhile. -/
def AppendLogEntry (kv : RaftKV) (entry : Op) (env : Env) : Option (Bool × RaftKV) :=
  if env.start.isLeader = false then some (false, kv)
  else
    match Loop (AppendLogEntry_slot kv env.start.index) env.commits with
    | some kv1 =>
      let r := AppendLogEntry_select kv1 env.start.index env.timerFirst
      some (AppendLogEntry_result entry env.start r.1, r.2)
    | none => none

/-- Lines 98 of `Get`: the command a `Get` submits. -/
def Get_entry (args : GetArgs) : Op :=
  { Kind := OP_GET, Key := args.Key, Value := "", SessionID := args.SessionID, ReqID := args.ReqID }

/-- Lines 101-112 of `Get`: from the boolean `ok` of `AppendLogEntry` and the
state `kv` at the lock, the reply and the state left behind. -/
def Get_finish (kv : RaftKV) (args : GetArgs) (reply : GetReply) (ok : Bool) : GetReply × RaftKV :=
  if ok = false then ({ reply with WrongLeader := true }, kv)
  else
    ({ Err := OK, WrongLeader := false, Value := readStr kv.data args.Key },
     { kv with history := Function.update kv.history args.SessionID (some args.ReqID) })

/-! ## Vocabulary of the statements -/

/-- The data and history `Loop` leaves after the commands `ops`, the registry
left aside: `applyIfNew` folded over the commands. -/
def applyAll (kv : RaftKV) (ops : List Op) : RaftKV :=
  ops.foldl applyIfNew kv

/-- Entry `j` of `L` carries the pair `(s, r)`. -/
def carries (L : List ApplyMsg) (j : Nat) (s r : Int) : Bool :=
  match L[j]? with
  | some m => decide (m.Command.SessionID = s ∧ m.Command.ReqID = r)
  | none => false

/-- Whether `Loop`, started in `kv0` on `L`, runs `Apply` on entry `j`: in the state it
has reached before entry `j`, `CheckDuplicate` returns false. -/
def appliedAt (kv0 : RaftKV) (L : List ApplyMsg) (j : Nat) : Bool :=
  match L[j]?, Loop kv0 (L.take j) with
  | some m, some kv => !CheckDuplicate kv m.Command
  | _, _ => false

/-- The ReqIDs of session `s` appear in non-decreasing order in `L`. -/
def reqIDsNonDecreasing (L : List ApplyMsg) (s : Int) : Prop :=
  List.Pairwise (fun a b : Int => a ≤ b)
    ((L.filter fun m => decide (m.Command.SessionID = s)).map fun m => m.Command.ReqID)

instance (L : List ApplyMsg) (s : Int) : Decidable (reqIDsNonDecreasing L s) := by
  unfold reqIDsNonDecreasing; infer_instance

/-! ## Concrete logs -/

/-- Command `Append("x","a")` of session 5, request 1. -/
def appendA : Op := { Kind := OP_APPEND, Key := "x", Value := "a", SessionID := 5, ReqID := 1 }

/-- Command `Append("x","b")` of session 5, request 2. -/
def appendB : Op := { Kind := OP_APPEND, Key := "x", Value := "b", SessionID := 5, ReqID := 2 }

/-- The two appends at indices 1 and 2, then the first one replayed at index 3. -/
def replayLog : List ApplyMsg :=
  [{ Index := 1, Command := appendA }, { Index := 2, Command := appendB },
   { Index := 3, Command := appendA }]

/-- The first append committed twice (a retry), then the second append. -/
def retryLog : List ApplyMsg :=
  [{ Index := 1, Command := appendA }, { Index := 2, Command := appendA },
   { Index := 3, Command := appendB }]

/-- A state with `data["x"] = "1"`, session 5 recorded at request 1, no slot. -/
def stateX1 : RaftKV :=
  { data := Function.update (fun _ => none) "x" (some "1"),
    results := fun _ => none,
    history := Function.update (fun _ => none) 5 (some 1) }

/-- Command `Put("x","1")` of session 5, request 1. -/
def putX1 : Op := { Kind := OP_PUT, Key := "x", Value := "1", SessionID := 5, ReqID := 1 }

/-- Command `Put("x","2")` of session 6, request 1. -/
def putX2 : Op := { Kind := OP_PUT, Key := "x", Value := "2", SessionID := 6, ReqID := 1 }

/-- Request `Get("x")` of session 7, request 3. -/
def getX : GetArgs := { Key := "x", SessionID := 7, ReqID := 3 }

/-- Command `Put("x","v")` of session 7, request 4. -/
def put74 : Op := { Kind := OP_PUT, Key := "x", Value := "v", SessionID := 7, ReqID := 4 }

/-- A reply as the RPC layer hands it to a handler: all fields zero. -/
def reply0 : GetReply := { WrongLeader := false, Err := "", Value := "" }

/-- The environment of a call on the leader whose command goes to `index`, with
`Loop` processing `commits` while the caller waits and no timeout. -/
def leaderAt (index : Int) (commits : List ApplyMsg) : Env :=
  { start := { index := index, term := 1, isLeader := true }, commits := commits,
    timerFirst := false }

/-- A slow `Get` handler.  Session 7 sends `Get("x")` as request 3; the command
is committed at index 1 and its handler's `AppendLogEntry` returns `ok1`, but the
handler has not yet taken the lock of line 108.  The client retries: the same
command is committed at index 2 and the second handler finishes.  The client
goes on to request 4, a Put, committed at index 3.  Then the first handler runs
lines 108-112.  The result: `ok1`, `ok2`, the state before the first handler's
record and the state after it. -/
def lateGet : Option (Bool × Bool × RaftKV × RaftKV) :=
  match AppendLogEntry Init (Get_entry getX)
      (leaderAt 1 [{ Index := 1, Command := Get_entry getX }]) with
  | none => none
  | some (ok1, kv1) =>
    match AppendLogEntry kv1 (Get_entry getX)
        (leaderAt 2 [{ Index := 2, Command := Get_entry getX }]) with
    | none => none
    | some (ok2, kv2) =>
      match Loop (Get_finish kv2 getX reply0 ok2).2 [{ Index := 3, Command := put74 }] with
      | none => none
      | some kv4 => some (ok1, ok2, kv4, (Get_finish kv4 getX reply0 ok1).2)

/-- A retried Put acknowledged after another client's write.  `Put("x","1")` of
session 5 is committed at index 1, `Put("x","2")` of session 6 at index 2; then
the retry of the first Put is submitted, committed at index 3 and awaited there.
The result: what the retry's `AppendLogEntry` returns, the state it leaves, and
the reply of a `Get("x")` that succeeds afterwards. -/
def retriedPut : Option (Bool × RaftKV × GetReply) :=
  match Loop Init [{ Index := 1, Command := putX1 }, { Index := 2, Command := putX2 }] with
  | none => none
  | some kv2 =>
    match AppendLogEntry kv2 putX1 (leaderAt 3 [{ Index := 3, Command := putX1 }]) with
    | none => none
    | some (ok, kv3) => some (ok, kv3, (Get_finish kv3 getX reply0 true).1)

/-- Command `Put("x","1")` of session 5, request 1, committed at indices 1 and 2 with a
waiter on each.  The result: what the two calls of `AppendLogEntry` return, the
state after the first and after the second, and the reply of a `Get("x")` that
succeeds afterwards. -/
def twicePut : Option (Bool × Bool × RaftKV × RaftKV × GetReply) :=
  match AppendLogEntry Init putX1 (leaderAt 1 [{ Index := 1, Command := putX1 }]) with
  | none => none
  | some (ok1, kv1) =>
    match AppendLogEntry kv1 putX1 (leaderAt 2 [{ Index := 2, Command := putX1 }]) with
    | none => none
    | some (ok2, kv2) => some (ok1, ok2, kv1, kv2, (Get_finish kv2 getX reply0 true).1)

/-! ## The RPC handlers and the interleaving of steps -/

/-- Modelled from the spec: `PutAppendArgs` is declared outside `server.go`; the
spec gives `PutAppend(op, key, value, sessionID, requestID)` and `PutAppend`
reads these five fields. -/
structure PutAppendArgs where
  Op : String
  Key : String
  Value : String
  SessionID : Int
  ReqID : Int
  deriving DecidableEq, Repr

/-- Modelled from the spec: `PutAppendReply` is declared outside `server.go`; the
spec gives `{wrongLeader, status}` and `PutAppend` writes these two fields. -/
structure PutAppendReply where
  WrongLeader : Bool
  Err : String
  deriving DecidableEq, Repr

/-- Method `Get` (lines 96-114): `AppendLogEntry` in environment `env`; on success
`Loop` processes `later` before the handler takes the lock of line 108. -/
def Get (kv : RaftKV) (args : GetArgs) (reply : GetReply) (env : Env)
    (later : List ApplyMsg) : Option (GetReply × RaftKV) :=
  match AppendLogEntry kv (Get_entry args) env with
  | none => none
  | some (ok, kv1) =>
    if ok = false then some (Get_finish kv1 args reply ok)
    else
      match Loop kv1 later with
      | some kv2 => some (Get_finish kv2 args reply ok)
      | none => none

/-- Line 118 of `PutAppend`: the command a `PutAppend` submits. -/
def PutAppend_entry (args : PutAppendArgs) : Op :=
  { Kind := args.Op, Key := args.Key, Value := args.Value, SessionID := args.SessionID,
    ReqID := args.ReqID }

/-- Lines 122-128 of `PutAppend`: the reply, from the boolean `ok` of
`AppendLogEntry`. -/
def PutAppend_finish (reply : PutAppendReply) (ok : Bool) : PutAppendReply :=
  if ok = false then { reply with WrongLeader := true }
  else { WrongLeader := false, Err := OK }

/-- Method `PutAppend` (lines 116-130) in environment `env`. -/
def PutAppend (kv : RaftKV) (args : PutAppendArgs) (reply : PutAppendReply) (env : Env) :
    Option (PutAppendReply × RaftKV) :=
  match AppendLogEntry kv (PutAppend_entry args) env with
  | none => none
  | some (ok, kv1) => some (PutAppend_finish reply ok, kv1)

/-- Two coordinators wait on the same `index`, the first with command `c1`, the
second with `c2`, both told `isLeader = true`; then `Loop` processes the one
committed message `(index, op)`; then the two `select`s end, the first
coordinator's before the other's when `firstFirst`.  The result: what the two
calls return and the state left. -/
def twoWaiters (kv : RaftKV) (c1 c2 : Op) (index : Int) (op : Op)
    (firstFirst timer1 timer2 : Bool) : Option (Bool × Bool × RaftKV) :=
  let start1 : StartReply := { index := index, term := 1, isLeader := true }
  let start2 : StartReply := { index := index, term := 2, isLeader := true }
  match LoopStep (AppendLogEntry_slot (AppendLogEntry_slot kv index) index)
      { Index := index, Command := op } with
  | none => none
  | some kv1 =>
    if firstFirst then
      let r1 := AppendLogEntry_select kv1 index timer1
      let r2 := AppendLogEntry_select r1.2 index timer2
      some (AppendLogEntry_result c1 start1 r1.1, AppendLogEntry_result c2 start2 r2.1, r2.2)
    else
      let r2 := AppendLogEntry_select kv1 index timer2
      let r1 := AppendLogEntry_select r2.2 index timer1
      some (AppendLogEntry_result c1 start1 r1.1, AppendLogEntry_result c2 start2 r2.1, r1.2)

/-- The steps that touch the registry: an iteration of `Loop`, a handler's slot
lookup (lines 70-76), a waiter's receive (line 79). -/
inductive Event where
  | commit (msg : ApplyMsg)
  | lookup (index : Int)
  | receive (index : Int)
  deriving DecidableEq, Repr

/-- One step of the server; `none` when `Loop` blocks. -/
def step (kv : RaftKV) : Event → Option RaftKV
  | Event.commit msg => LoopStep kv msg
  | Event.lookup index => some (AppendLogEntry_slot kv index)
  | Event.receive index => some (AppendLogEntry_select kv index false).2

/-- A sequence of steps. -/
def run : RaftKV → List Event → Option RaftKV
  | kv, [] => some kv
  | kv, ev :: rest =>
    match step kv ev with
    | some kv1 => run kv1 rest
    | none => none

/-- Command `Append("x","v")` of session 7, request 4. -/
def append74 : Op :=
  { Kind := OP_APPEND, Key := "x", Value := "v", SessionID := 7, ReqID := 4 }

/-- A slow `Get` handler and a retried Append.  Session 7 sends `Get("x")` as
request 3; it is committed at index 1 and its handler's `AppendLogEntry` returns
`ok1`, but the handler has not yet taken the lock of line 108.  The retry of the
same `Get` is committed at index 2 and answered.  Request 4, `Append("x","v")`,
is committed at index 3.  Then the first handler runs lines 108-112.  Then the
retry of request 4 is committed at index 4.  The result: `ok1`, the state before
index 3, after index 3, after the first handler's record, and after index 4. -/
def doubleApply : Option (Bool × RaftKV × RaftKV × RaftKV × RaftKV) :=
  match AppendLogEntry Init (Get_entry getX)
      (leaderAt 1 [{ Index := 1, Command := Get_entry getX }]) with
  | none => none
  | some (ok1, kv1) =>
    match Get kv1 getX reply0 (leaderAt 2 [{ Index := 2, Command := Get_entry getX }]) [] with
    | none => none
    | some (_, kv2) =>
      match Loop kv2 [{ Index := 3, Command := append74 }] with
      | none => none
      | some kv3 =>
        match Loop (Get_finish kv3 getX reply0 ok1).2 [{ Index := 4, Command := append74 }] with
        | none => none
        | some kv5 => some (ok1, kv2, kv3, (Get_finish kv3 getX reply0 ok1).2, kv5)

/-- A command whose kind is neither Put nor Append nor Get, as `PutAppend` would
submit it for `args.Op = "Delete"`. -/
def deleteArgs : PutAppendArgs :=
  { Op := "Delete", Key := "x", Value := "1", SessionID := 9, ReqID := 1 }

/-- The environment of a call on a server that is not the leader. -/
def notLeader : Env :=
  { start := { index := 0, term := 1, isLeader := false }, commits := [], timerFirst := false }

/-- The environment of a call on the leader whose command goes to index 1 and
whose wait ends by the timer, nothing being committed meanwhile. -/
def timedOut : Env :=
  { start := { index := 1, term := 1, isLeader := true }, commits := [], timerFirst := true }

/-- Command `Put("x","v")` of session 7, request 3: the pair of `getX`. -/
def put73 : Op := { Kind := OP_PUT, Key := "x", Value := "v", SessionID := 7, ReqID := 3 }

/-- The pair (7, 3) carried first by a Get, then by a Put. -/
def getThenPut : List ApplyMsg :=
  [{ Index := 1, Command := Get_entry getX }, { Index := 2, Command := put73 }]

/-- Whether `Loop`, started in `kv0` on `L`, writes the mutation of entry `j` to
`data`: `Apply` runs on it and its kind is one of the two cases of the switch of
lines 87-92. -/
def mutatesAt (kv0 : RaftKV) (L : List ApplyMsg) (j : Nat) : Bool :=
  match L[j]? with
  | some m =>
    appliedAt kv0 L j && (decide (m.Command.Kind = OP_PUT) || decide (m.Command.Kind = OP_APPEND))
  | none => false

/-- A commit that overtakes its submitter's slot lookup.  The command of
`deleteArgs` is committed at index 1 and `Loop` processes it on `Init`, before the
handler that submitted it has taken the lock of line 70; then the handler looks
slot 1 up and waits.  The result: the state after the `Loop` step, what
`AppendLogEntry` returns, and the reply of `PutAppend`. -/
def lateLookup : Option (RaftKV × Bool × PutAppendReply) :=
  match LoopStep Init { Index := 1, Command := PutAppend_entry deleteArgs } with
  | none => none
  | some kv1 =>
    match AppendLogEntry kv1 (PutAppend_entry deleteArgs) (leaderAt 1 []) with
    | none => none
    | some (ok, _) => some (kv1, ok, PutAppend_finish { WrongLeader := false, Err := "" } ok)

/-! ## Lemmas on one step -/

theorem publish_some (kv : RaftKV) (msg : ApplyMsg) :
    ∃ kv1, publish kv msg = some kv1 ∧ kv1.data = kv.data ∧ kv1.history = kv.history := by
  unfold publish
  cases h : kv.results msg.Index with
  | none => exact ⟨_, rfl, rfl, rfl⟩
  | some ch => cases ch <;> exact ⟨_, rfl, rfl, rfl⟩

theorem LoopStep_some (kv : RaftKV) (msg : ApplyMsg) :
    ∃ kv1, LoopStep kv msg = some kv1 ∧ kv1.data = (applyIfNew kv msg.Command).data ∧
      kv1.history = (applyIfNew kv msg.Command).history :=
  publish_some (applyIfNew kv msg.Command) msg

theorem applyIfNew_congr (kv1 kv2 : RaftKV) (op : Op) (hd : kv1.data = kv2.data)
    (hh : kv1.history = kv2.history) :
    (applyIfNew kv1 op).data = (applyIfNew kv2 op).data ∧
      (applyIfNew kv1 op).history = (applyIfNew kv2 op).history := by
  unfold applyIfNew CheckDuplicate Apply
  rw [hd, hh]
  split <;> simp [hd, hh]

theorem applyAll_congr (ops : List Op) (kv1 kv2 : RaftKV) (hd : kv1.data = kv2.data)
    (hh : kv1.history = kv2.history) :
    (applyAll kv1 ops).data = (applyAll kv2 ops).data ∧
      (applyAll kv1 ops).history = (applyAll kv2 ops).history := by
  induction ops generalizing kv1 kv2 with
  | nil => exact ⟨hd, hh⟩
  | cons op rest ih =>
    have h := applyIfNew_congr kv1 kv2 op hd hh
    exact ih _ _ h.1 h.2

theorem Loop_some (L : List ApplyMsg) (kv : RaftKV) :
    ∃ kv1, Loop kv L = some kv1 ∧
      kv1.data = (applyAll kv (L.map fun m => m.Command)).data ∧
      kv1.history = (applyAll kv (L.map fun m => m.Command)).history := by
  induction L generalizing kv with
  | nil => exact ⟨kv, rfl, rfl, rfl⟩
  | cons msg rest ih =>
    obtain ⟨kv1, h1, hd, hh⟩ := LoopStep_some kv msg
    obtain ⟨kv2, h2, hd2, hh2⟩ := ih kv1
    refine ⟨kv2, ?_, ?_, ?_⟩
    · simp [Loop, h1, h2]
    · rw [hd2]; exact (applyAll_congr _ _ _ hd hh).1
    · rw [hh2]; exact (applyAll_congr _ _ _ hd hh).2

/-! ## The session tracker under `Loop` -/

theorem CheckDuplicate_eq_true_iff (kv : RaftKV) (entry : Op) :
    CheckDuplicate kv entry = true ↔
      ∃ id, kv.history entry.SessionID = some id ∧ entry.ReqID ≤ id := by
  unfold CheckDuplicate
  cases h : kv.history entry.SessionID with
  | none => simp
  | some id => simp

theorem CheckDuplicate_congr (kv1 kv2 : RaftKV) (op : Op) (hh : kv1.history = kv2.history) :
    CheckDuplicate kv1 op = CheckDuplicate kv2 op := by
  unfold CheckDuplicate
  rw [hh]

theorem applyIfNew_of_duplicate (kv : RaftKV) (op : Op) (h : CheckDuplicate kv op = true) :
    applyIfNew kv op = kv := by
  simp [applyIfNew, h]

theorem applyIfNew_of_new (kv : RaftKV) (op : Op) (h : CheckDuplicate kv op = false) :
    applyIfNew kv op = Apply kv op := by
  simp [applyIfNew, h]

theorem applyIfNew_history_self (kv : RaftKV) (op : Op) :
    ∃ b, (applyIfNew kv op).history op.SessionID = some b ∧ op.ReqID ≤ b := by
  cases h : CheckDuplicate kv op with
  | true =>
    rw [applyIfNew_of_duplicate kv op h]
    exact (CheckDuplicate_eq_true_iff kv op).1 h
  | false =>
    rw [applyIfNew_of_new kv op h]
    exact ⟨op.ReqID, by simp [Apply], le_refl _⟩

theorem applyIfNew_history_mono (kv : RaftKV) (op : Op) (s a : Int)
    (h : kv.history s = some a) :
    ∃ b, (applyIfNew kv op).history s = some b ∧ a ≤ b := by
  cases hc : CheckDuplicate kv op with
  | true =>
    rw [applyIfNew_of_duplicate kv op hc]
    exact ⟨a, h, le_refl _⟩
  | false =>
    rw [applyIfNew_of_new kv op hc]
    by_cases hs : s = op.SessionID
    · subst hs
      refine ⟨op.ReqID, by simp [Apply], ?_⟩
      have hn : ¬ CheckDuplicate kv op = true := by simp [hc]
      rw [CheckDuplicate_eq_true_iff] at hn
      by_contra hlt
      exact hn ⟨a, h, by omega⟩
    · exact ⟨a, by simp [Apply, Function.update_noteq hs, h], le_refl _⟩

theorem applyAll_history_mono (ops : List Op) (kv : RaftKV) (s a : Int)
    (h : kv.history s = some a) :
    ∃ b, (applyAll kv ops).history s = some b ∧ a ≤ b := by
  induction ops generalizing kv a with
  | nil => exact ⟨a, h, le_refl _⟩
  | cons op rest ih =>
    obtain ⟨b, hb, hab⟩ := applyIfNew_history_mono kv op s a h
    obtain ⟨c, hc, hbc⟩ := ih (applyIfNew kv op) b hb
    exact ⟨c, hc, le_trans hab hbc⟩

theorem applyAll_append (kv : RaftKV) (xs ys : List Op) :
    applyAll kv (xs ++ ys) = applyAll (applyAll kv xs) ys := by
  simp [applyAll, List.foldl_append]

/-- Once a command has been processed, `CheckDuplicate` rejects every later
copy of its pair. -/
theorem duplicate_after (kv : RaftKV) (xs ys : List Op) (op op1 : Op)
    (hs : op1.SessionID = op.SessionID) (hr : op1.ReqID ≤ op.ReqID) :
    CheckDuplicate (applyAll kv (xs ++ op :: ys)) op1 = true := by
  rw [CheckDuplicate_eq_true_iff, applyAll_append, hs]
  obtain ⟨b, hb, hle⟩ := applyIfNew_history_self (applyAll kv xs) op
  obtain ⟨c, hc, hbc⟩ := applyAll_history_mono ys (applyIfNew (applyAll kv xs) op) _ b hb
  exact ⟨c, hc, by omega⟩

theorem carries_iff (L : List ApplyMsg) (j : Nat) (s r : Int) :
    carries L j s r = true ↔
      ∃ m, L[j]? = some m ∧ m.Command.SessionID = s ∧ m.Command.ReqID = r := by
  unfold carries
  cases h : L[j]? with
  | none => simp
  | some m => simp

theorem take_split {α : Type} (L : List α) (j1 j2 : Nat) (m : α) (h : L[j1]? = some m)
    (hlt : j1 < j2) : ∃ R, L.take j2 = L.take j1 ++ m :: R := by
  induction L generalizing j1 j2 with
  | nil => simp at h
  | cons a L ih =>
    cases j2 with
    | zero => omega
    | succ k =>
      cases j1 with
      | zero =>
        simp at h
        exact ⟨L.take k, by simp [h]⟩
      | succ i =>
        simp at h
        obtain ⟨R, hR⟩ := ih i k h (by omega)
        exact ⟨R, by simp [hR]⟩

theorem appliedAt_eq (kv0 : RaftKV) (L : List ApplyMsg) (j : Nat) (m : ApplyMsg)
    (h : L[j]? = some m) :
    appliedAt kv0 L j =
      !CheckDuplicate (applyAll kv0 ((L.take j).map fun m => m.Command)) m.Command := by
  obtain ⟨kv, hk, _, hh⟩ := Loop_some (L.take j) kv0
  simp only [appliedAt, h, hk]
  rw [CheckDuplicate_congr _ _ _ hh]

theorem applied_unique (kv0 : RaftKV) (L : List ApplyMsg) (s r : Int) (j1 j2 : Nat)
    (hlt : j1 < j2) (c1 : carries L j1 s r = true) (c2 : carries L j2 s r = true) :
    appliedAt kv0 L j2 = false := by
  unfold carries at c1 c2
  cases h1 : L[j1]? with
  | none => simp [h1] at c1
  | some m1 =>
    cases h2 : L[j2]? with
    | none => simp [h2] at c2
    | some m2 =>
      simp [h1] at c1
      simp [h2] at c2
      obtain ⟨R, hR⟩ := take_split L j1 j2 m1 h1 hlt
      rw [appliedAt_eq kv0 L j2 m2 h2, hR]
      simp only [List.map_append, List.map_cons]
      rw [duplicate_after _ _ _ m1.Command m2.Command (by omega) (by omega)]
      rfl

theorem Loop_append (kv : RaftKV) (xs ys : List ApplyMsg) :
    Loop kv (xs ++ ys) = (Loop kv xs).bind fun kv1 => Loop kv1 ys := by
  induction xs generalizing kv with
  | nil => rfl
  | cons m rest ih =>
    simp only [List.cons_append, Loop]
    cases LoopStep kv m with
    | none => rfl
    | some kv1 => exact ih kv1

theorem Loop_take_succ (kv0 kv : RaftKV) (L : List ApplyMsg) (j : Nat) (m : ApplyMsg)
    (h : L[j]? = some m) (hk : Loop kv0 (L.take j) = some kv) :
    Loop kv0 (L.take (j + 1)) = LoopStep kv m := by
  rw [List.take_succ, h, Loop_append, hk]
  simp only [Option.toList, Option.bind, Loop]
  cases LoopStep kv m <;> rfl

/-! ## At-most-once application (C1) -/

/-- C1: in a run of `Loop` from `Init` over any finite sequence `L`, and for any
pair `(s, r)`: `Apply` runs on at most one entry carrying `(s, r)`, and every
entry carrying `(s, r)` on which it does not run leaves `data` unchanged. -/
theorem C1_applied_at_most_once (L : List ApplyMsg) (s r : Int) :
    (∀ j1 j2, carries L j1 s r = true → carries L j2 s r = true →
      appliedAt Init L j1 = true → appliedAt Init L j2 = true → j1 = j2) ∧
    (∀ j, carries L j s r = true → appliedAt Init L j = false →
      ∃ kv kv1, Loop Init (L.take j) = some kv ∧ Loop Init (L.take (j + 1)) = some kv1 ∧
        kv1.data = kv.data) := by
  constructor
  · intro j1 j2 c1 c2 a1 a2
    rcases Nat.lt_trichotomy j1 j2 with hlt | heq | hgt
    · rw [applied_unique Init L s r j1 j2 hlt c1 c2] at a2
      exact absurd a2 (by decide)
    · exact heq
    · rw [applied_unique Init L s r j2 j1 hgt c2 c1] at a1
      exact absurd a1 (by decide)
  · intro j c a
    cases h : L[j]? with
    | none => simp [carries, h] at c
    | some m =>
      obtain ⟨kv, hk, _, _⟩ := Loop_some (L.take j) Init
      obtain ⟨kv1, hk1, hd, _⟩ := LoopStep_some kv m
      refine ⟨kv, kv1, hk, ?_, ?_⟩
      · rw [Loop_take_succ Init kv L j m h hk, hk1]
      · simp only [appliedAt, h, hk, Bool.not_eq_false'] at a
        rw [hd, applyIfNew_of_duplicate kv m.Command a]

/-- In `replayLog` the pair (5, 1) is carried by entries 0 and 2; `Apply` runs on
entry 0 only, and entry 2 leaves `data` unchanged. -/
theorem C1_applied_at_most_once_witness :
    carries replayLog 0 5 1 = true ∧ carries replayLog 2 5 1 = true ∧
    appliedAt Init replayLog 0 = true ∧ appliedAt Init replayLog 2 = false ∧
    ∃ kv kv1, Loop Init (replayLog.take 2) = some kv ∧
      Loop Init (replayLog.take (2 + 1)) = some kv1 ∧ kv1.data = kv.data :=
  ⟨by decide, by decide, by decide, by decide,
   (C1_applied_at_most_once replayLog 5 1).2 2 (by decide) (by decide)⟩

/-! ## Exactly-once application for ordered sessions (C2) -/

theorem applyAll_history_source (ops : List Op) (kv : RaftKV) (s b : Int)
    (h : (applyAll kv ops).history s = some b) :
    kv.history s = some b ∨ ∃ op ∈ ops, op.SessionID = s ∧ op.ReqID = b := by
  induction ops generalizing kv with
  | nil => exact Or.inl h
  | cons op rest ih =>
    rcases ih (applyIfNew kv op) h with h1 | ⟨op1, hm, hs, hr⟩
    · cases hc : CheckDuplicate kv op with
      | true =>
        rw [applyIfNew_of_duplicate kv op hc] at h1
        exact Or.inl h1
      | false =>
        rw [applyIfNew_of_new kv op hc] at h1
        by_cases hs : s = op.SessionID
        · subst hs
          simp [Apply] at h1
          exact Or.inr ⟨op, List.mem_cons_self _ _, rfl, h1⟩
        · simp [Apply, Function.update_noteq hs] at h1
          exact Or.inl h1
    · exact Or.inr ⟨op1, List.mem_cons_of_mem _ hm, hs, hr⟩

/-- In an ordered session, an entry before position `j` has a ReqID at most
that of entry `j`. -/
theorem reqID_le_of_ordered (L : List ApplyMsg) (s : Int) (h : reqIDsNonDecreasing L s)
    (j : Nat) (m m1 : ApplyMsg) (hj : L[j]? = some m) (hm : m.Command.SessionID = s)
    (h1 : m1 ∈ L.take j) (hs1 : m1.Command.SessionID = s) :
    m1.Command.ReqID ≤ m.Command.ReqID := by
  have hsplit : L = L.take j ++ m :: L.drop (j + 1) := by
    have hlt : j < L.length := by
      rcases Nat.lt_or_ge j L.length with hl | hl
      · exact hl
      · rw [List.getElem?_eq_none hl] at hj
        exact absurd hj (by simp)
    have hd : L.drop j = m :: L.drop (j + 1) := by
      rw [List.drop_eq_getElem_cons hlt]
      rw [List.getElem?_eq_getElem hlt] at hj
      simp at hj
      rw [hj]
    rw [← hd, List.take_append_drop]
  unfold reqIDsNonDecreasing at h
  rw [hsplit, List.filter_append, List.map_append, List.pairwise_append] at h
  apply h.2.2
  · exact List.mem_map.2 ⟨m1, List.mem_filter.2 ⟨h1, by simp [hs1]⟩, rfl⟩
  · exact List.mem_map.2 ⟨m, List.mem_filter.2 ⟨List.mem_cons_self _ _, by simp [hm]⟩, rfl⟩

/-- In an ordered session `Apply` runs on the first entry carrying `(s, r)`. -/
theorem first_carrier_applied (L : List ApplyMsg) (s r : Int)
    (hord : reqIDsNonDecreasing L s) (j0 : Nat) (hc0 : carries L j0 s r = true)
    (hfirst : ∀ j, j < j0 → carries L j s r = false) :
    appliedAt Init L j0 = true := by
  obtain ⟨m0, h0, hs0, hr0⟩ := (carries_iff L j0 s r).1 hc0
  rw [appliedAt_eq Init L _ m0 h0]
  cases hd : CheckDuplicate (applyAll Init ((L.take j0).map fun m => m.Command))
      m0.Command with
  | false => rfl
  | true =>
    exfalso
    obtain ⟨b, hb, hle⟩ := (CheckDuplicate_eq_true_iff _ _).1 hd
    rcases applyAll_history_source _ _ _ _ hb with hi | ⟨op, hmem, hs, hr⟩
    · simp [Init] at hi
    · obtain ⟨m1, hm1, rfl⟩ := List.mem_map.1 hmem
      have hle1 := reqID_le_of_ordered L s hord _ m0 m1 h0 hs0 hm1 (by rw [hs, hs0])
      obtain ⟨i, hi, hget⟩ := List.mem_take_iff_getElem.1 hm1
      have hi1 : i < j0 := by omega
      have hi2 : i < L.length := by omega
      have hgi : L[i]? = some m1 := by
        rw [List.getElem?_eq_getElem hi2, hget]
      have hcar : carries L i s r = true :=
        (carries_iff L i s r).2 ⟨m1, hgi, by rw [hs, hs0], by omega⟩
      rw [hfirst i hi1] at hcar
      exact absurd hcar (by decide)

/-- An entry on which `Apply` does not run leaves `data` as it is. -/
theorem unapplied_keeps_data (kv0 : RaftKV) (L : List ApplyMsg) (j : Nat) (m : ApplyMsg)
    (h : L[j]? = some m) (a : appliedAt kv0 L j = false) :
    ∃ kv kv1, Loop kv0 (L.take j) = some kv ∧ Loop kv0 (L.take (j + 1)) = some kv1 ∧
      kv1.data = kv.data := by
  obtain ⟨kv, hk, _, _⟩ := Loop_some (L.take j) kv0
  obtain ⟨kv1, hk1, hd, _⟩ := LoopStep_some kv m
  refine ⟨kv, kv1, hk, ?_, ?_⟩
  · rw [Loop_take_succ kv0 kv L j m h hk, hk1]
  · simp only [appliedAt, h, hk, Bool.not_eq_false'] at a
    rw [hd, applyIfNew_of_duplicate kv m.Command a]

/-- C2 as stated fails: in `getThenPut` session 7 is ordered and the Put entry
carries (7, 3), but the first entry carrying (7, 3) is the Get; `Apply` runs on
the Get, which writes nothing to `data`, `CheckDuplicate` rejects the Put, so no
entry carrying (7, 3) has its mutation written to `data` and `data["x"]` stays
absent. -/
theorem C2_counterexample :
    reqIDsNonDecreasing getThenPut 7 ∧
    (∃ m ∈ getThenPut, m.Command.SessionID = 7 ∧ m.Command.ReqID = 3 ∧
      (m.Command.Kind = OP_PUT ∨ m.Command.Kind = OP_APPEND)) ∧
    carries getThenPut 0 7 3 = true ∧ carries getThenPut 1 7 3 = true ∧
    appliedAt Init getThenPut 0 = true ∧ appliedAt Init getThenPut 1 = false ∧
    mutatesAt Init getThenPut 0 = false ∧ mutatesAt Init getThenPut 1 = false ∧
    (Loop Init getThenPut).map (fun kv => kv.data "x") = some none := by
  refine ⟨by decide, ⟨{ Index := 2, Command := put73 }, by decide, by decide, by decide,
    Or.inl (by decide)⟩, by decide, by decide, by decide, by decide, by decide, by decide,
    by decide⟩

/-- C2 amended: when the ReqIDs of session `s` appear in non-decreasing order in
`L` and the first entry carrying `(s, r)` is a Put or an Append, `Loop` run from
`Init` writes the mutation of exactly one entry carrying `(s, r)` to `data`, the
first: right after it `data[Key]` is `Value` for a Put and the previous value
followed by `Value` for an Append; on every other entry carrying `(s, r)`
`Apply` does not run and `data` stays as it is. -/
theorem C2_first_copy_mutates (L : List ApplyMsg) (s r : Int) (j0 : Nat) (m0 : ApplyMsg)
    (hord : reqIDsNonDecreasing L s)
    (h0 : L[j0]? = some m0)
    (hs0 : m0.Command.SessionID = s) (hr0 : m0.Command.ReqID = r)
    (hfirst : ∀ j, j < j0 → carries L j s r = false)
    (hput : m0.Command.Kind = OP_PUT ∨ m0.Command.Kind = OP_APPEND) :
    mutatesAt Init L j0 = true ∧
    (∃ kv kv1, Loop Init (L.take j0) = some kv ∧ Loop Init (L.take (j0 + 1)) = some kv1 ∧
      (m0.Command.Kind = OP_PUT → kv1.data m0.Command.Key = some m0.Command.Value) ∧
      (m0.Command.Kind = OP_APPEND →
        kv1.data m0.Command.Key =
          some (readStr kv.data m0.Command.Key ++ m0.Command.Value))) ∧
    (∀ j, carries L j s r = true → j ≠ j0 →
      appliedAt Init L j = false ∧ mutatesAt Init L j = false ∧
      ∃ kva kvb, Loop Init (L.take j) = some kva ∧ Loop Init (L.take (j + 1)) = some kvb ∧
        kvb.data = kva.data) := by
  have hc0 : carries L j0 s r = true := (carries_iff L j0 s r).2 ⟨m0, h0, hs0, hr0⟩
  have happ : appliedAt Init L j0 = true := first_carrier_applied L s r hord j0 hc0 hfirst
  refine ⟨?_, ?_, ?_⟩
  · simp only [mutatesAt, h0, happ, Bool.true_and, Bool.or_eq_true, decide_eq_true_eq]
    exact hput
  · obtain ⟨kv, hk, _, _⟩ := Loop_some (L.take j0) Init
    obtain ⟨kv1, hk1, hd, _⟩ := LoopStep_some kv m0
    have hnew : CheckDuplicate kv m0.Command = false := by
      simpa [appliedAt, h0, hk] using happ
    rw [applyIfNew_of_new kv _ hnew] at hd
    refine ⟨kv, kv1, hk, by rw [Loop_take_succ Init kv L j0 m0 h0 hk, hk1], ?_, ?_⟩
    · intro h
      rw [hd]
      simp only [Apply, if_pos h, Function.update_same]
    · intro h
      have hne : ¬ m0.Command.Kind = OP_PUT := by rw [h]; decide
      rw [hd]
      simp only [Apply, if_neg hne, if_pos h, Function.update_same]
  · intro j cj hne
    have hlt : j0 < j := by
      rcases Nat.lt_trichotomy j j0 with hlt | heq | hgt
      · rw [hfirst j hlt] at cj
        exact absurd cj (by decide)
      · exact absurd heq hne
      · exact hgt
    have hna : appliedAt Init L j = false := applied_unique Init L s r j0 j hlt hc0 cj
    obtain ⟨m, hm, _, _⟩ := (carries_iff L j s r).1 cj
    refine ⟨hna, ?_, unapplied_keeps_data Init L j m hm hna⟩
    simp [mutatesAt, hm, hna]

/-- In `retryLog` session 5 is ordered and the first entry carrying (5, 1) is
`appendA`: its mutation is written once, at entry 0, and its copy at entry 1
leaves `data` as it is. -/
theorem C2_first_copy_mutates_witness :
    reqIDsNonDecreasing retryLog 5 ∧
    mutatesAt Init retryLog 0 = true ∧
    (∃ kv kv1, Loop Init (retryLog.take 0) = some kv ∧
      Loop Init (retryLog.take (0 + 1)) = some kv1 ∧
      (appendA.Kind = OP_PUT → kv1.data appendA.Key = some appendA.Value) ∧
      (appendA.Kind = OP_APPEND →
        kv1.data appendA.Key = some (readStr kv.data appendA.Key ++ appendA.Value))) ∧
    (∀ j, carries retryLog j 5 1 = true → j ≠ 0 →
      appliedAt Init retryLog j = false ∧ mutatesAt Init retryLog j = false ∧
      ∃ kva kvb, Loop Init (retryLog.take j) = some kva ∧
        Loop Init (retryLog.take (j + 1)) = some kvb ∧ kvb.data = kva.data) :=
  ⟨by decide,
   C2_first_copy_mutates retryLog 5 1 0 { Index := 1, Command := appendA } (by decide) rfl rfl
     rfl (fun j hj => absurd hj (Nat.not_lt_zero j)) (Or.inr (by decide))⟩

/-! ## Idempotent replay (C3) -/

theorem applyAll_replay (kv : RaftKV) (xs ys zs : List Op) (op : Op) :
    applyAll kv ((xs ++ op :: ys) ++ op :: zs) = applyAll kv ((xs ++ op :: ys) ++ zs) := by
  rw [applyAll_append kv (xs ++ op :: ys) (op :: zs), applyAll_append kv (xs ++ op :: ys) zs]
  have h := duplicate_after kv xs ys op op rfl (le_refl _)
  show applyAll (applyIfNew (applyAll kv (xs ++ op :: ys)) op) zs = _
  rw [applyIfNew_of_duplicate _ _ h]

/-- C3: for every sequence `L`, entry `L[i]` and position `p` after `i`, `Loop` run
from `Init` on `L` and on `L` with one more copy of `L[i]` inserted at `p` end
with the same `data` and the same `history`; and the log `Append(x,a)`,
`Append(x,b)`, `Append(x,a)` replayed leaves `data["x"] = "ab"`. -/
theorem C3_idempotent_replay :
    (∀ (L : List ApplyMsg) (i p : Nat) (e : ApplyMsg), L[i]? = some e → i < p →
      ∃ kv kv1, Loop Init L = some kv ∧ Loop Init (L.take p ++ e :: L.drop p) = some kv1 ∧
        kv1.data = kv.data ∧ kv1.history = kv.history) ∧
    (∃ kv, Loop Init replayLog = some kv ∧ kv.data "x" = some "ab") := by
  constructor
  · intro L i p e he hip
    obtain ⟨kv, hk, hd, hh⟩ := Loop_some L Init
    obtain ⟨kv1, hk1, hd1, hh1⟩ := Loop_some (L.take p ++ e :: L.drop p) Init
    obtain ⟨R, hR⟩ := take_split L i p e he hip
    have hL : L = (L.take i ++ e :: R) ++ L.drop p := by
      rw [← hR, List.take_append_drop]
    have heq : applyAll Init ((L.take p ++ e :: L.drop p).map fun m => m.Command) =
        applyAll Init (L.map fun m => m.Command) := by
      conv_rhs => rw [hL]
      rw [hR]
      simp only [List.map_append, List.map_cons]
      exact applyAll_replay _ _ _ _ _
    refine ⟨kv, kv1, hk, hk1, ?_, ?_⟩
    · rw [hd1, hd, heq]
    · rw [hh1, hh, heq]
  · obtain ⟨kv, hk, hd, _⟩ := Loop_some replayLog Init
    exact ⟨kv, hk, by rw [hd]; decide⟩

/-- The log `Append(x,a)`, `Append(x,b)` with its entry 0 replayed at position 2
is `replayLog`: both end with the same `data` and `history`. -/
theorem C3_idempotent_replay_witness :
    ∃ kv kv1, Loop Init (replayLog.take 2) = some kv ∧
      Loop Init ((replayLog.take 2).take 2 ++
        { Index := 1, Command := appendA } :: (replayLog.take 2).drop 2) = some kv1 ∧
      kv1.data = kv.data ∧ kv1.history = kv.history :=
  C3_idempotent_replay.1 (replayLog.take 2) 0 2 { Index := 1, Command := appendA } rfl
    (by decide)

/-! ## The effect of one applied command (C4) -/

/-- C4: when `CheckDuplicate` does not reject the command of a committed
message, the `Loop` step completes and changes `data` so: a Put sets
`data[Key] = Value`; an Append sets `data[Key]` to its previous value followed by
`Value`, the previous value being empty when the key is absent; a Get leaves
`data` as it is; every other key keeps its value. -/
theorem C4_step_effect (kv : RaftKV) (msg : ApplyMsg)
    (hnew : CheckDuplicate kv msg.Command = false) :
    ∃ kv1, LoopStep kv msg = some kv1 ∧
      (msg.Command.Kind = OP_PUT → kv1.data msg.Command.Key = some msg.Command.Value) ∧
      (msg.Command.Kind = OP_APPEND →
        kv1.data msg.Command.Key =
          some (readStr kv.data msg.Command.Key ++ msg.Command.Value)) ∧
      (msg.Command.Kind = OP_APPEND → kv.data msg.Command.Key = none →
        kv1.data msg.Command.Key = some msg.Command.Value) ∧
      (msg.Command.Kind = OP_GET → kv1.data = kv.data) ∧
      (∀ k, k ≠ msg.Command.Key → kv1.data k = kv.data k) := by
  obtain ⟨kv1, hk, hd, _⟩ := LoopStep_some kv msg
  rw [applyIfNew_of_new kv _ hnew] at hd
  refine ⟨kv1, hk, ?_, ?_, ?_, ?_, ?_⟩
  · intro h
    rw [hd]
    simp [Apply, h]
  · intro h
    have hne : ¬ msg.Command.Kind = OP_PUT := by rw [h]; decide
    rw [hd]
    simp only [Apply, if_neg hne, if_pos h, Function.update_same]
  · intro h hnone
    have hne : ¬ msg.Command.Kind = OP_PUT := by rw [h]; decide
    rw [hd]
    simp only [Apply, if_neg hne, if_pos h, Function.update_same, readStr, hnone]
    simp
  · intro h
    have hne : ¬ msg.Command.Kind = OP_PUT := by rw [h]; decide
    have hne1 : ¬ msg.Command.Kind = OP_APPEND := by rw [h]; decide
    rw [hd]
    simp [Apply, hne, hne1]
  · intro k hkne
    rw [hd]
    simp only [Apply]
    split
    · exact Function.update_noteq hkne _ _
    · split
      · exact Function.update_noteq hkne _ _
      · rfl

/-- Command `Append("x","b")` of request 2 on `stateX1`, where session 5 is at request 1. -/
theorem C4_step_effect_witness :
    CheckDuplicate stateX1 appendB = false ∧
    ∃ kv1, LoopStep stateX1 { Index := 2, Command := appendB } = some kv1 ∧
      (appendB.Kind = OP_PUT → kv1.data appendB.Key = some appendB.Value) ∧
      (appendB.Kind = OP_APPEND →
        kv1.data appendB.Key = some (readStr stateX1.data appendB.Key ++ appendB.Value)) ∧
      (appendB.Kind = OP_APPEND → stateX1.data appendB.Key = none →
        kv1.data appendB.Key = some appendB.Value) ∧
      (appendB.Kind = OP_GET → kv1.data = stateX1.data) ∧
      (∀ k, k ≠ appendB.Key → kv1.data k = stateX1.data k) :=
  ⟨by decide, C4_step_effect stateX1 { Index := 2, Command := appendB } (by decide)⟩

/-! ## The duplicate check (C5) -/

/-- C5: `CheckDuplicate(entry)` returns true exactly when `history` has an entry
for `entry.SessionID` whose ReqID is at least `entry.ReqID`; with no entry for
the session it returns false; it only reads the state, and the guarded lines
157-159 of `Loop` leave the state as it is when it returns true. -/
theorem C5_CheckDuplicate_spec (kv : RaftKV) (entry : Op) :
    (CheckDuplicate kv entry = true ↔
      ∃ id, kv.history entry.SessionID = some id ∧ id ≥ entry.ReqID) ∧
    (kv.history entry.SessionID = none → CheckDuplicate kv entry = false) ∧
    (CheckDuplicate kv entry = true → applyIfNew kv entry = kv) := by
  refine ⟨CheckDuplicate_eq_true_iff kv entry, ?_, applyIfNew_of_duplicate kv entry⟩
  intro h
  simp [CheckDuplicate, h]

/-- On `stateX1`, where session 5 is at request 1: `appendA` (request 1) is a
duplicate and the guarded lines leave the state as it is. -/
theorem C5_CheckDuplicate_spec_witness :
    CheckDuplicate stateX1 appendA = true ∧ applyIfNew stateX1 appendA = stateX1 :=
  ⟨by decide, (C5_CheckDuplicate_spec stateX1 appendA).2.2 (by decide)⟩

/-! ## The session tracker moves forward under `Loop`, not under `Get` (C6) -/

/-- A `Loop` step never removes a session's entry of `history` and never lowers
it. -/
theorem LoopStep_history_forward (kv : RaftKV) (msg : ApplyMsg) (s a : Int)
    (h : kv.history s = some a) :
    ∃ kv1 b, LoopStep kv msg = some kv1 ∧ kv1.history s = some b ∧ a ≤ b := by
  obtain ⟨kv1, hk, _, hh⟩ := LoopStep_some kv msg
  obtain ⟨b, hb, hab⟩ := applyIfNew_history_mono kv msg.Command s a h
  exact ⟨kv1, b, hk, by rw [hh, hb], hab⟩

/-- C6, the code at the failing input: in the run `lateGet` both calls of
`AppendLogEntry` return true, `history[7]` is 4 when the slow `Get` handler
takes the lock, and the handler's record of line 112 replaces it by 3. -/
theorem C6_get_record_lowers_history :
    lateGet.map (fun t => (t.1, t.2.1, t.2.2.1.history 7, t.2.2.2.history 7)) =
      some (true, true, some 4, some 3) := by
  decide

/-! ## Publishing to the registry (C7) -/

theorem applyIfNew_results (kv : RaftKV) (op : Op) :
    (applyIfNew kv op).results = kv.results := by
  unfold applyIfNew Apply
  split <;> rfl

/-- C7 as stated fails: from `Init`, where slot 1 does not exist, the `Loop`
step on `(1, appendA)` leaves slot 1 existing but empty, not holding
`appendA`, and a waiter that looks the slot up afterwards times out. -/
theorem C7_counterexample :
    Init.results 1 = none ∧
    (LoopStep Init { Index := 1, Command := appendA }).map (fun kv => kv.results 1) =
      some (some none) ∧
    (LoopStep Init { Index := 1, Command := appendA }).map
      (fun kv => (AppendLogEntry_select (AppendLogEntry_slot kv 1) 1 false).1) =
      some Arrival.timeout := by
  decide

theorem LoopStep_slot_some (kv : RaftKV) (msg : ApplyMsg) (ch : Chan)
    (h : kv.results msg.Index = some ch) :
    ∃ kv1, LoopStep kv msg = some kv1 ∧
      kv1.results msg.Index = some (some msg.Command) := by
  unfold LoopStep publish
  rw [applyIfNew_results, h]
  cases ch <;> exact ⟨_, rfl, by simp⟩

theorem LoopStep_slot_none (kv : RaftKV) (msg : ApplyMsg)
    (h : kv.results msg.Index = none) :
    ∃ kv1, LoopStep kv msg = some kv1 ∧ kv1.results msg.Index = some none := by
  unfold LoopStep publish
  rw [applyIfNew_results, h]
  exact ⟨_, rfl, by simp⟩

/-- C7 amended: the `Loop` step on `(i, op)` always completes and leaves slot `i`
existing; when the slot existed before the step, empty or holding a stale
command, it holds exactly `op` afterwards and a waiter receiving from it gets
`op`; when the slot did not exist, it is created empty. -/
theorem C7_publish_slot (kv : RaftKV) (msg : ApplyMsg) :
    ∃ kv1, LoopStep kv msg = some kv1 ∧ kv1.results msg.Index ≠ none ∧
      (∀ ch, kv.results msg.Index = some ch →
        kv1.results msg.Index = some (some msg.Command) ∧
        (AppendLogEntry_select kv1 msg.Index false).1 = Arrival.delivered msg.Command) ∧
      (kv.results msg.Index = none → kv1.results msg.Index = some none) := by
  cases h : kv.results msg.Index with
  | none =>
    obtain ⟨kv1, hk, hr⟩ := LoopStep_slot_none kv msg h
    refine ⟨kv1, hk, by rw [hr]; simp, ?_, fun _ => hr⟩
    intro ch hch
    exact absurd hch (by simp)
  | some ch0 =>
    obtain ⟨kv1, hk, hr⟩ := LoopStep_slot_some kv msg ch0 h
    refine ⟨kv1, hk, by rw [hr]; simp, ?_, ?_⟩
    · intro ch _
      exact ⟨hr, by simp [AppendLogEntry_select, hr]⟩
    · intro hn
      exact absurd hn (by simp)

/-- A stale `appendA` sits in slot 2 of a state; the `Loop` step on `(2, appendB)`
replaces it. -/
theorem C7_publish_slot_witness :
    ∃ kv1, LoopStep { stateX1 with results := Function.update (fun _ => none) 2 (some (some appendA)) }
        { Index := 2, Command := appendB } = some kv1 ∧
      kv1.results 2 = some (some appendB) ∧
      (AppendLogEntry_select kv1 2 false).1 = Arrival.delivered appendB := by
  obtain ⟨kv1, hk, _, hex, _⟩ := C7_publish_slot
    { stateX1 with results := Function.update (fun _ => none) 2 (some (some appendA)) }
    { Index := 2, Command := appendB }
  exact ⟨kv1, hk, hex (some appendA) (by decide)⟩

/-! ## What `AppendLogEntry` returns (C8) -/

theorem Op_eq_iff (a b : Op) :
    a = b ↔ a.Kind = b.Kind ∧ a.Key = b.Key ∧ a.Value = b.Value ∧
      a.SessionID = b.SessionID ∧ a.ReqID = b.ReqID := by
  constructor
  · rintro rfl
    exact ⟨rfl, rfl, rfl, rfl, rfl⟩
  · cases a; cases b
    simp only [Op.mk.injEq]
    exact id

theorem AppendLogEntry_result_true_iff (entry : Op) (start : StartReply) (arr : Arrival) :
    AppendLogEntry_result entry start arr = true ↔
      start.isLeader = true ∧ arr = Arrival.delivered entry := by
  unfold AppendLogEntry_result
  cases hl : start.isLeader with
  | false => simp
  | true =>
    cases arr with
    | timeout => simp
    | delivered op => simp

/-- C8: `AppendLogEntry(entry)` always returns, and it returns true exactly when
`rf.Start` reported `isLeader = true`, the `select` ended by a command delivered
on the slot of the returned index, and that command equals `entry` in all five
fields; not leader, timeout, and a delivered command differing in some field
each give false. -/
theorem C8_AppendLogEntry_returns (kv : RaftKV) (entry : Op) (env : Env) :
    ∃ kv1 ok kv2, Loop (AppendLogEntry_slot kv env.start.index) env.commits = some kv1 ∧
      AppendLogEntry kv entry env = some (ok, kv2) ∧
      (ok = true ↔ env.start.isLeader = true ∧
        ∃ op, (AppendLogEntry_select kv1 env.start.index env.timerFirst).1 =
            Arrival.delivered op ∧
          op.Kind = entry.Kind ∧ op.Key = entry.Key ∧ op.Value = entry.Value ∧
          op.SessionID = entry.SessionID ∧ op.ReqID = entry.ReqID) ∧
      (env.start.isLeader = false → ok = false) ∧
      ((AppendLogEntry_select kv1 env.start.index env.timerFirst).1 = Arrival.timeout →
        ok = false) ∧
      (∀ op, (AppendLogEntry_select kv1 env.start.index env.timerFirst).1 =
          Arrival.delivered op →
        (op.Kind ≠ entry.Kind ∨ op.Key ≠ entry.Key ∨ op.Value ≠ entry.Value ∨
          op.SessionID ≠ entry.SessionID ∨ op.ReqID ≠ entry.ReqID) → ok = false) := by
  obtain ⟨kv1, hk, _, _⟩ := Loop_some env.commits (AppendLogEntry_slot kv env.start.index)
  cases hl : env.start.isLeader with
  | false =>
    refine ⟨kv1, false, kv, hk, by simp [AppendLogEntry, hl], by simp, ?_, ?_, ?_⟩
    · intro _; rfl
    · intro _; rfl
    · intro _ _ _; rfl
  | true =>
    refine ⟨kv1, AppendLogEntry_result entry env.start
        (AppendLogEntry_select kv1 env.start.index env.timerFirst).1,
      (AppendLogEntry_select kv1 env.start.index env.timerFirst).2, hk,
      by simp [AppendLogEntry, hl, hk], ?_, ?_, ?_, ?_⟩
    · rw [AppendLogEntry_result_true_iff]
      constructor
      · rintro ⟨_, ha⟩
        exact ⟨rfl, entry, ha, rfl, rfl, rfl, rfl, rfl⟩
      · rintro ⟨_, op, ha, hf⟩
        exact ⟨hl, by rw [ha, (Op_eq_iff op entry).2 hf]⟩
    · intro h; exact absurd h (by simp)
    · intro ht
      cases hr : AppendLogEntry_result entry env.start
          (AppendLogEntry_select kv1 env.start.index env.timerFirst).1 with
      | false => rfl
      | true =>
        rw [AppendLogEntry_result_true_iff, ht] at hr
        exact absurd hr.2 (by simp)
    · intro op ha hne
      cases hr : AppendLogEntry_result entry env.start
          (AppendLogEntry_select kv1 env.start.index env.timerFirst).1 with
      | false => rfl
      | true =>
        rw [AppendLogEntry_result_true_iff, ha] at hr
        have hop : op = entry := by simpa using hr.2
        subst hop
        simp at hne

/-- A call on a server that is not the leader returns false. -/
theorem C8_AppendLogEntry_returns_witness :
    ∃ ok kv2, AppendLogEntry Init putX1
        { start := { index := 1, term := 1, isLeader := false }, commits := [],
          timerFirst := false } = some (ok, kv2) ∧ ok = false := by
  obtain ⟨_, ok, kv2, _, h2, _, h4, _⟩ := C8_AppendLogEntry_returns Init putX1
    { start := { index := 1, term := 1, isLeader := false }, commits := [], timerFirst := false }
  exact ⟨ok, kv2, h2, h4 rfl⟩

/-! ## Reading after an acknowledged write (C9) -/

theorem applyIfNew_data_other (kv : RaftKV) (op : Op) (k : String)
    (h : (op.Kind = OP_PUT ∨ op.Kind = OP_APPEND) → op.Key ≠ k) :
    (applyIfNew kv op).data k = kv.data k := by
  unfold applyIfNew Apply
  split
  · simp only
    split
    · next hp => exact Function.update_noteq (Ne.symm (h (Or.inl hp))) _ _
    · split
      · next ha => exact Function.update_noteq (Ne.symm (h (Or.inr ha))) _ _
      · rfl
  · rfl

theorem Loop_data_other (rest : List ApplyMsg) (kv : RaftKV) (k : String)
    (h : ∀ m ∈ rest, (m.Command.Kind = OP_PUT ∨ m.Command.Kind = OP_APPEND) →
      m.Command.Key ≠ k) :
    ∃ kv2, Loop kv rest = some kv2 ∧ kv2.data k = kv.data k := by
  induction rest generalizing kv with
  | nil => exact ⟨kv, rfl, rfl⟩
  | cons m rest ih =>
    obtain ⟨kv1, hk, hd, _⟩ := LoopStep_some kv m
    obtain ⟨kv2, hk2, hd2⟩ := ih kv1 (fun m1 hm1 => h m1 (List.mem_cons_of_mem _ hm1))
    refine ⟨kv2, by simp [Loop, hk, hk2], ?_⟩
    rw [hd2, hd]
    exact applyIfNew_data_other kv m.Command k (h m (List.mem_cons_self _ _))

/-- C9 as stated fails: in the run `retriedPut` the retry of `Put("x","1")` is
published at index 3 and its submitter's `AppendLogEntry` returns true, no entry
follows it, and yet `data["x"]` is "2" and a successful `Get("x")` replies "2":
`CheckDuplicate` rejected the retry, and `Put("x","2")` came after the first
copy. -/
theorem C9_counterexample :
    retriedPut.map (fun t => (t.1, t.2.1.data "x", t.2.2.Value)) =
      some (true, some "2", "2") := by
  decide

theorem CheckDuplicate_applyIfNew (kv : RaftKV) (op op1 : Op)
    (h : CheckDuplicate kv op1 = true) : CheckDuplicate (applyIfNew kv op) op1 = true := by
  rw [CheckDuplicate_eq_true_iff] at h ⊢
  obtain ⟨id, hid, hle⟩ := h
  obtain ⟨b, hb, hab⟩ := applyIfNew_history_mono kv op _ id hid
  exact ⟨b, hb, le_trans hle hab⟩

/-- Once a Put of `k` has been applied, copies of it and entries that are no Put
or Append on `k` keep `data[k]` and keep the Put a duplicate. -/
theorem Loop_keeps_put (rest : List ApplyMsg) (kv : RaftKV) (k v : String) (op : Op)
    (hd : kv.data k = some v) (hdup : CheckDuplicate kv op = true)
    (hrest : ∀ m ∈ rest, m.Command = op ∨
      ((m.Command.Kind = OP_PUT ∨ m.Command.Kind = OP_APPEND) → m.Command.Key ≠ k)) :
    ∃ kv2, Loop kv rest = some kv2 ∧ kv2.data k = some v ∧ CheckDuplicate kv2 op = true := by
  induction rest generalizing kv with
  | nil => exact ⟨kv, rfl, hd, hdup⟩
  | cons m rest ih =>
    obtain ⟨kv1, hk, hd1, hh1⟩ := LoopStep_some kv m
    have hdata : kv1.data k = some v := by
      rw [hd1]
      rcases hrest m (List.mem_cons_self _ _) with hcopy | hother
      · rw [hcopy, applyIfNew_of_duplicate kv op hdup]
        exact hd
      · rw [applyIfNew_data_other kv m.Command k hother]
        exact hd
    have hdup1 : CheckDuplicate kv1 op = true := by
      rw [CheckDuplicate_congr kv1 _ op hh1]
      exact CheckDuplicate_applyIfNew kv m.Command op hdup
    obtain ⟨kv2, hk2, hd2, hdup2⟩ :=
      ih kv1 hdata hdup1 (fun m1 hm1 => hrest m1 (List.mem_cons_of_mem _ hm1))
    exact ⟨kv2, by simp [Loop, hk, hk2], hd2, hdup2⟩

/-- C9 amended: `Loop` applies a `Put(k, v)` entry (`CheckDuplicate` does not
reject it), and every entry of `rest` after it is either a copy of it or not a
Put or Append on `k`.  Then `data[k] = v` in the state where the entry is
published (it is published there when its slot exists), `data[k] = v` after
`rest`, and a successful `Get(k)` finishing there replies `v`.  Every copy in
`rest`, a retry, is rejected by `CheckDuplicate`, leaves `data[k] = v`, and when
its slot exists is published there, so that its submitter receives it and
`AppendLogEntry` returns true. -/
theorem C9_read_after_acknowledged_put (kv : RaftKV) (msg : ApplyMsg)
    (rest : List ApplyMsg) (args : GetArgs) (reply : GetReply)
    (hput : msg.Command.Kind = OP_PUT)
    (hnew : CheckDuplicate kv msg.Command = false)
    (hrest : ∀ m ∈ rest, m.Command = msg.Command ∨
      ((m.Command.Kind = OP_PUT ∨ m.Command.Kind = OP_APPEND) →
        m.Command.Key ≠ msg.Command.Key))
    (hkey : args.Key = msg.Command.Key) :
    ∃ kv1 kv2, LoopStep kv msg = some kv1 ∧ Loop kv1 rest = some kv2 ∧
      kv1.data msg.Command.Key = some msg.Command.Value ∧
      (∀ ch, kv.results msg.Index = some ch →
        kv1.results msg.Index = some (some msg.Command)) ∧
      kv2.data msg.Command.Key = some msg.Command.Value ∧
      (Get_finish kv2 args reply true).1.Value = msg.Command.Value ∧
      (∀ pre m post, rest = pre ++ m :: post → m.Command = msg.Command →
        ∃ kva kvb, Loop kv1 pre = some kva ∧ LoopStep kva m = some kvb ∧
          CheckDuplicate kva m.Command = true ∧
          kva.data msg.Command.Key = some msg.Command.Value ∧
          kvb.data msg.Command.Key = some msg.Command.Value ∧
          (∀ ch, kva.results m.Index = some ch →
            kvb.results m.Index = some (some m.Command) ∧
            ∀ start : StartReply, start.isLeader = true →
              AppendLogEntry_result msg.Command start
                (AppendLogEntry_select kvb m.Index false).1 = true)) := by
  obtain ⟨kv1, hk, hd, hh⟩ := LoopStep_some kv msg
  have hv1 : kv1.data msg.Command.Key = some msg.Command.Value := by
    rw [hd, applyIfNew_of_new kv _ hnew]
    simp [Apply, hput]
  have hdup1 : CheckDuplicate kv1 msg.Command = true := by
    rw [CheckDuplicate_congr kv1 _ _ hh, CheckDuplicate_eq_true_iff]
    exact applyIfNew_history_self kv msg.Command
  obtain ⟨kv2, hk2, hd2, _⟩ :=
    Loop_keeps_put rest kv1 msg.Command.Key msg.Command.Value msg.Command hv1 hdup1 hrest
  refine ⟨kv1, kv2, hk, hk2, hv1, ?_, hd2, ?_, ?_⟩
  · intro ch hch
    obtain ⟨kv1b, hkb, hr⟩ := LoopStep_slot_some kv msg ch hch
    rw [hk] at hkb
    rw [Option.some.inj hkb]
    exact hr
  · simp [Get_finish, readStr, hkey, hd2]
  · intro pre m post hsplit hcopy
    have hpre : ∀ m1 ∈ pre, m1.Command = msg.Command ∨
        ((m1.Command.Kind = OP_PUT ∨ m1.Command.Kind = OP_APPEND) →
          m1.Command.Key ≠ msg.Command.Key) := by
      intro m1 hm1
      exact hrest m1 (by rw [hsplit]; exact List.mem_append_left _ hm1)
    obtain ⟨kva, hka, hda, hdupa⟩ :=
      Loop_keeps_put pre kv1 msg.Command.Key msg.Command.Value msg.Command hv1 hdup1 hpre
    obtain ⟨kvb, hkb, hdb, _⟩ := LoopStep_some kva m
    have hdupm : CheckDuplicate kva m.Command = true := by rw [hcopy]; exact hdupa
    refine ⟨kva, kvb, hka, hkb, hdupm, hda, ?_, ?_⟩
    · rw [hdb, applyIfNew_of_duplicate kva _ hdupm]
      exact hda
    · intro ch hch
      obtain ⟨kvc, hkc, hr⟩ := LoopStep_slot_some kva m ch hch
      rw [hkb] at hkc
      have hr1 : kvb.results m.Index = some (some m.Command) := by
        rw [Option.some.inj hkc]
        exact hr
      refine ⟨hr1, fun start hl => ?_⟩
      rw [AppendLogEntry_result_true_iff]
      exact ⟨hl, by simp [AppendLogEntry_select, hr1, hcopy]⟩

/-- The retry scenario: with waiters on slots 1 and 2, `Put("x","1")` of session
5, request 1, is committed at index 1 and its retry at index 2; the retry is
rejected, published and acknowledged, and `Get("x")` replies "1". -/
theorem C9_read_after_acknowledged_put_witness :
    ∃ kv1 kv2 kvb,
      LoopStep (AppendLogEntry_slot (AppendLogEntry_slot Init 1) 2)
        { Index := 1, Command := putX1 } = some kv1 ∧
      Loop kv1 [{ Index := 2, Command := putX1 }] = some kv2 ∧
      kv1.results 1 = some (some putX1) ∧
      kv2.data "x" = some "1" ∧
      (Get_finish kv2 getX reply0 true).1.Value = "1" ∧
      LoopStep kv1 { Index := 2, Command := putX1 } = some kvb ∧
      CheckDuplicate kv1 putX1 = true ∧
      kvb.results 2 = some (some putX1) ∧
      AppendLogEntry_result putX1 { index := 2, term := 1, isLeader := true }
        (AppendLogEntry_select kvb 2 false).1 = true := by
  obtain ⟨kv1, kv2, h1, h2, _, h4, h5, h6, h7⟩ :=
    C9_read_after_acknowledged_put (AppendLogEntry_slot (AppendLogEntry_slot Init 1) 2)
      { Index := 1, Command := putX1 } [{ Index := 2, Command := putX1 }] getX reply0
      (by decide) (by decide) (fun m hm => Or.inl (by simp at hm; rw [hm])) (by decide)
  obtain ⟨kva, kvb, ha, hb, hdup, _, _, hpub⟩ :=
    h7 [] { Index := 2, Command := putX1 } [] rfl rfl
  have hka : kva = kv1 := by
    simp only [Loop] at ha
    exact (Option.some.inj ha).symm
  subst hka
  have hslot : kva.results 2 = some none := by
    have h1r := congrArg (Option.map fun kv => kv.results 2) h1
    have hcomp : (LoopStep (AppendLogEntry_slot (AppendLogEntry_slot Init 1) 2)
        { Index := 1, Command := putX1 }).map (fun kv => kv.results 2) = some (some none) := by
      decide
    rw [hcomp] at h1r
    simpa using h1r.symm
  obtain ⟨hp1, hp2⟩ := hpub none hslot
  exact ⟨kva, kv2, kvb, h1, h2, h4 none (by decide), h5, h6, hb, hdup, hp1,
    hp2 { index := 2, term := 1, isLeader := true } rfl⟩

/-! ## A rejected duplicate is still acknowledged (C10) -/

theorem AppendLogEntry_slot_frame (kv : RaftKV) (index : Int) :
    (AppendLogEntry_slot kv index).data = kv.data ∧
      (AppendLogEntry_slot kv index).history = kv.history ∧
      ∃ ch, (AppendLogEntry_slot kv index).results index = some ch := by
  unfold AppendLogEntry_slot
  cases h : kv.results index with
  | none => exact ⟨rfl, rfl, none, by simp⟩
  | some ch => exact ⟨rfl, rfl, ch, h⟩

/-- C10: when `CheckDuplicate` rejects a committed entry whose slot a coordinator
has looked up, the `Loop` step still publishes it there and leaves `data` and
`history` as they were, and the coordinator's `AppendLogEntry` with the same
command returns true.  In the run `twicePut`, `Put("x","1")` of session 5,
request 1, committed at indices 1 and 2: both calls return true, `Apply` does
not run on the second, `data["x"]` stays "1" and `Get("x")` replies "1". -/
theorem C10_duplicate_acknowledged :
    (∀ (kv : RaftKV) (entry : Op) (index : Int), CheckDuplicate kv entry = true →
      (∃ kv1, LoopStep (AppendLogEntry_slot kv index) { Index := index, Command := entry } =
          some kv1 ∧
        kv1.results index = some (some entry) ∧ kv1.data = kv.data ∧
        kv1.history = kv.history) ∧
      (∃ kv2, AppendLogEntry kv entry (leaderAt index [{ Index := index, Command := entry }]) =
          some (true, kv2) ∧ kv2.data = kv.data)) ∧
    twicePut.map (fun t => (t.1, t.2.1, t.2.2.1.data "x", t.2.2.2.1.data "x", t.2.2.2.2.Value)) =
      some (true, true, some "1", some "1", "1") ∧
    appliedAt Init [{ Index := 1, Command := putX1 }, { Index := 2, Command := putX1 }] 1 =
      false := by
  refine ⟨?_, by decide, by decide⟩
  intro kv entry index hdup
  obtain ⟨hd0, hh0, ch, hch⟩ := AppendLogEntry_slot_frame kv index
  have hdup0 : CheckDuplicate (AppendLogEntry_slot kv index) entry = true := by
    rw [CheckDuplicate_congr _ kv entry hh0]
    exact hdup
  obtain ⟨kv1, hk, hr⟩ :=
    LoopStep_slot_some (AppendLogEntry_slot kv index) { Index := index, Command := entry } ch hch
  obtain ⟨kv1b, hkb, hd, hh⟩ :=
    LoopStep_some (AppendLogEntry_slot kv index) { Index := index, Command := entry }
  rw [hk] at hkb
  have hsame : kv1b = kv1 := (Option.some.inj hkb).symm
  subst hsame
  rw [applyIfNew_of_duplicate _ _ hdup0] at hd hh
  have hr1 : kv1b.results index = some (some entry) := hr
  refine ⟨⟨kv1b, hk, hr1, by rw [hd, hd0], by rw [hh, hh0]⟩, ?_⟩
  refine ⟨(AppendLogEntry_select kv1b index false).2, ?_, ?_⟩
  · simp [AppendLogEntry, leaderAt, Loop, hk, AppendLogEntry_select, hr1, AppendLogEntry_result]
  · simp [AppendLogEntry_select, hr1, hd, hd0]

/-- On `stateX1`, where session 5 is at request 1, `Put("x","1")` of request 1
committed at index 2 with a waiter there: published, acknowledged, `data` as
before. -/
theorem C10_duplicate_acknowledged_witness :
    CheckDuplicate stateX1 putX1 = true ∧
    (∃ kv1, LoopStep (AppendLogEntry_slot stateX1 2) { Index := 2, Command := putX1 } =
        some kv1 ∧
      kv1.results 2 = some (some putX1) ∧ kv1.data = stateX1.data ∧
      kv1.history = stateX1.history) ∧
    (∃ kv2, AppendLogEntry stateX1 putX1 (leaderAt 2 [{ Index := 2, Command := putX1 }]) =
        some (true, kv2) ∧ kv2.data = stateX1.data) :=
  ⟨by decide, C10_duplicate_acknowledged.1 stateX1 putX1 2 (by decide)⟩

/-! ## Two coordinators on one index (C11) -/

theorem AppendLogEntry_select_frame (kv : RaftKV) (index : Int) (t : Bool) :
    (AppendLogEntry_select kv index t).2.data = kv.data ∧
      (AppendLogEntry_select kv index t).2.history = kv.history := by
  unfold AppendLogEntry_select
  cases t with
  | true => exact ⟨rfl, rfl⟩
  | false =>
    simp only [Bool.false_eq_true, if_false]
    split <;> exact ⟨rfl, rfl⟩

/-- While only `op` has been sent on the slot, a `select` on it delivers `op` or
nothing, and leaves the slot holding `op` or empty. -/
theorem AppendLogEntry_select_only (kv : RaftKV) (index : Int) (t : Bool) (op : Op)
    (h : kv.results index = some (some op) ∨ kv.results index = some none) :
    ((AppendLogEntry_select kv index t).2.results index = some (some op) ∨
      (AppendLogEntry_select kv index t).2.results index = some none) ∧
    ∀ x, (AppendLogEntry_select kv index t).1 = Arrival.delivered x → x = op := by
  unfold AppendLogEntry_select
  cases t with
  | true => exact ⟨h, fun x hx => by simp at hx⟩
  | false =>
    rcases h with h | h
    · simp [h]
    · simp [h]

/-- C11: two coordinators with different commands `c1 ≠ c2` wait on the same
index, and one committed command `op` is delivered there: both calls return, at
most one returns true, a call returns true only if `op` is its own command, and
`data` and `history` are what the `Loop` step on `op` alone leaves. -/
theorem C11_leadership_change (kv : RaftKV) (c1 c2 : Op) (index : Int) (op : Op)
    (firstFirst timer1 timer2 : Bool) (hne : c1 ≠ c2) :
    ∃ ok1 ok2 kv3, twoWaiters kv c1 c2 index op firstFirst timer1 timer2 =
        some (ok1, ok2, kv3) ∧
      ¬ (ok1 = true ∧ ok2 = true) ∧ (ok1 = true → op = c1) ∧ (ok2 = true → op = c2) ∧
      kv3.data = (applyIfNew kv op).data ∧ kv3.history = (applyIfNew kv op).history := by
  obtain ⟨hd0, hh0, ch, hch⟩ := AppendLogEntry_slot_frame (AppendLogEntry_slot kv index) index
  obtain ⟨hd00, hh00, _⟩ := AppendLogEntry_slot_frame kv index
  obtain ⟨kv1, hk, hr⟩ := LoopStep_slot_some
    (AppendLogEntry_slot (AppendLogEntry_slot kv index) index)
    { Index := index, Command := op } ch hch
  obtain ⟨kv1b, hkb, hd, hh⟩ := LoopStep_some
    (AppendLogEntry_slot (AppendLogEntry_slot kv index) index) { Index := index, Command := op }
  rw [hk] at hkb
  have hsame : kv1b = kv1 := (Option.some.inj hkb).symm
  subst hsame
  have hcong := applyIfNew_congr (AppendLogEntry_slot (AppendLogEntry_slot kv index) index) kv op
    (hd0.trans hd00) (hh0.trans hh00)
  have hd1 : kv1b.data = (applyIfNew kv op).data := hd.trans hcong.1
  have hh1 : kv1b.history = (applyIfNew kv op).history := hh.trans hcong.2
  have hr1 : kv1b.results index = some (some op) := hr
  cases firstFirst with
  | true =>
    obtain ⟨hs1, ha1⟩ := AppendLogEntry_select_only kv1b index timer1 op (Or.inl hr1)
    obtain ⟨_, ha2⟩ := AppendLogEntry_select_only
      (AppendLogEntry_select kv1b index timer1).2 index timer2 op hs1
    obtain ⟨hf1d, hf1h⟩ := AppendLogEntry_select_frame kv1b index timer1
    obtain ⟨hf2d, hf2h⟩ := AppendLogEntry_select_frame
      (AppendLogEntry_select kv1b index timer1).2 index timer2
    have h1 : AppendLogEntry_result c1 { index := index, term := 1, isLeader := true }
        (AppendLogEntry_select kv1b index timer1).1 = true → op = c1 := by
      intro h
      exact (ha1 c1 ((AppendLogEntry_result_true_iff _ _ _).1 h).2).symm
    have h2 : AppendLogEntry_result c2 { index := index, term := 2, isLeader := true }
        (AppendLogEntry_select (AppendLogEntry_select kv1b index timer1).2 index timer2).1 =
          true → op = c2 := by
      intro h
      exact (ha2 c2 ((AppendLogEntry_result_true_iff _ _ _).1 h).2).symm
    refine ⟨_, _, _, by simp only [twoWaiters, hk, if_true]; rfl, ?_, h1, h2, ?_, ?_⟩
    · rintro ⟨a, b⟩
      exact hne ((h1 a).symm.trans (h2 b))
    · rw [hf2d, hf1d, hd1]
    · rw [hf2h, hf1h, hh1]
  | false =>
    obtain ⟨hs2, ha2⟩ := AppendLogEntry_select_only kv1b index timer2 op (Or.inl hr1)
    obtain ⟨_, ha1⟩ := AppendLogEntry_select_only
      (AppendLogEntry_select kv1b index timer2).2 index timer1 op hs2
    obtain ⟨hf2d, hf2h⟩ := AppendLogEntry_select_frame kv1b index timer2
    obtain ⟨hf1d, hf1h⟩ := AppendLogEntry_select_frame
      (AppendLogEntry_select kv1b index timer2).2 index timer1
    have h2 : AppendLogEntry_result c2 { index := index, term := 2, isLeader := true }
        (AppendLogEntry_select kv1b index timer2).1 = true → op = c2 := by
      intro h
      exact (ha2 c2 ((AppendLogEntry_result_true_iff _ _ _).1 h).2).symm
    have h1 : AppendLogEntry_result c1 { index := index, term := 1, isLeader := true }
        (AppendLogEntry_select (AppendLogEntry_select kv1b index timer2).2 index timer1).1 =
          true → op = c1 := by
      intro h
      exact (ha1 c1 ((AppendLogEntry_result_true_iff _ _ _).1 h).2).symm
    refine ⟨_, _, _, by simp only [twoWaiters, hk, Bool.false_eq_true, if_false]; rfl, ?_,
      h1, h2, ?_, ?_⟩
    · rintro ⟨a, b⟩
      exact hne ((h1 a).symm.trans (h2 b))
    · rw [hf1d, hf2d, hd1]
    · rw [hf1h, hf2h, hh1]

/-- Coordinators with `putX1` and `putX2` both wait on index 1 and `putX1` is
committed there. -/
theorem C11_leadership_change_witness :
    putX1 ≠ putX2 ∧
    ∃ ok1 ok2 kv3, twoWaiters Init putX1 putX2 1 putX1 true false false =
        some (ok1, ok2, kv3) ∧
      ¬ (ok1 = true ∧ ok2 = true) ∧ (ok1 = true → putX1 = putX1) ∧
      (ok2 = true → putX1 = putX2) ∧
      kv3.data = (applyIfNew Init putX1).data ∧
      kv3.history = (applyIfNew Init putX1).history :=
  ⟨by decide, C11_leadership_change Init putX1 putX2 1 putX1 true false false (by decide)⟩

/-! ## The replies of the handlers (C12, C13) -/

/-- C12: when `AppendLogEntry` returns true, `Get` completes and sets
`reply.Value` to the value `data` holds for `args.Key` in the state `kv2` in which
the handler holds the lock, the empty string when the key is absent; the read
leaves `data` as it is, so an absent key stays absent. -/
theorem C12_get_reads_data (kv : RaftKV) (args : GetArgs) (reply : GetReply) (env : Env)
    (later : List ApplyMsg)
    (hok : (AppendLogEntry kv (Get_entry args) env).map (fun r => r.1) = some true) :
    ∃ kv1 kv2 r kv3, AppendLogEntry kv (Get_entry args) env = some (true, kv1) ∧
      Loop kv1 later = some kv2 ∧ Get kv args reply env later = some (r, kv3) ∧
      r.Value = readStr kv2.data args.Key ∧
      (∀ v, kv2.data args.Key = some v → r.Value = v) ∧
      (kv2.data args.Key = none → r.Value = "" ∧ kv3.data args.Key = none) ∧
      kv3.data = kv2.data := by
  cases h : AppendLogEntry kv (Get_entry args) env with
  | none => simp [h] at hok
  | some p =>
    obtain ⟨ok, kv1⟩ := p
    simp [h] at hok
    subst hok
    obtain ⟨kv2, hk2, _, _⟩ := Loop_some later kv1
    refine ⟨kv1, kv2, (Get_finish kv2 args reply true).1, (Get_finish kv2 args reply true).2,
      rfl, hk2, by simp [Get, h, hk2], rfl, ?_, ?_, rfl⟩
    · intro v hv
      simp [Get_finish, readStr, hv]
    · intro hn
      exact ⟨by simp [Get_finish, readStr, hn], hn⟩

/-- A `Get("x")` on the leader, committed at index 1 after `Put("x","1")` was
applied: the reply carries "1". -/
theorem C12_get_reads_data_witness :
    ∃ kv1 kv2 r kv3, AppendLogEntry stateX1 (Get_entry getX)
        (leaderAt 1 [{ Index := 1, Command := Get_entry getX }]) = some (true, kv1) ∧
      Loop kv1 [] = some kv2 ∧
      Get stateX1 getX reply0 (leaderAt 1 [{ Index := 1, Command := Get_entry getX }]) [] =
        some (r, kv3) ∧
      r.Value = readStr kv2.data getX.Key ∧
      (∀ v, kv2.data getX.Key = some v → r.Value = v) ∧
      (kv2.data getX.Key = none → r.Value = "" ∧ kv3.data getX.Key = none) ∧
      kv3.data = kv2.data :=
  C12_get_reads_data stateX1 getX reply0
    (leaderAt 1 [{ Index := 1, Command := Get_entry getX }]) [] (by decide)

theorem AppendLogEntry_some (kv : RaftKV) (entry : Op) (env : Env) :
    ∃ ok kv1, AppendLogEntry kv entry env = some (ok, kv1) := by
  unfold AppendLogEntry
  obtain ⟨kv1, hk, _, _⟩ := Loop_some env.commits (AppendLogEntry_slot kv env.start.index)
  split
  · exact ⟨_, _, rfl⟩
  · rw [hk]
    exact ⟨_, _, rfl⟩

/-- C13: for `Get` and for `PutAppend`, the handler completes; the reply has
`WrongLeader = true` exactly when `AppendLogEntry` returned false, and then it is
the reply as it was with only `WrongLeader` set, whatever made the call fail;
when `AppendLogEntry` returned true the reply has `WrongLeader = false` and
`Err = OK`. -/
theorem C13_wrong_leader_iff (kv : RaftKV) (env : Env) :
    (∀ (args : GetArgs) (reply : GetReply) (later : List ApplyMsg),
      ∃ ok kv1 r kv3, AppendLogEntry kv (Get_entry args) env = some (ok, kv1) ∧
        Get kv args reply env later = some (r, kv3) ∧
        (r.WrongLeader = true ↔ ok = false) ∧
        (ok = false → r = { reply with WrongLeader := true }) ∧
        (ok = true → r.WrongLeader = false ∧ r.Err = OK)) ∧
    (∀ (args : PutAppendArgs) (reply : PutAppendReply),
      ∃ ok kv1 r, AppendLogEntry kv (PutAppend_entry args) env = some (ok, kv1) ∧
        PutAppend kv args reply env = some (r, kv1) ∧
        (r.WrongLeader = true ↔ ok = false) ∧
        (ok = false → r = { reply with WrongLeader := true }) ∧
        (ok = true → r.WrongLeader = false ∧ r.Err = OK)) := by
  constructor
  · intro args reply later
    obtain ⟨ok, kv1, h⟩ := AppendLogEntry_some kv (Get_entry args) env
    cases ok with
    | false =>
      exact ⟨false, kv1, _, _, h, by simp [Get, h]; rfl, by simp [Get_finish],
        fun _ => by simp [Get_finish], fun hc => by simp at hc⟩
    | true =>
      obtain ⟨kv2, hk2, _, _⟩ := Loop_some later kv1
      exact ⟨true, kv1, _, _, h, by simp [Get, h, hk2]; rfl, by simp [Get_finish],
        fun hc => by simp at hc, fun _ => by simp [Get_finish]⟩
  · intro args reply
    obtain ⟨ok, kv1, h⟩ := AppendLogEntry_some kv (PutAppend_entry args) env
    cases ok with
    | false =>
      exact ⟨false, kv1, _, h, by simp [PutAppend, h]; rfl, by simp [PutAppend_finish],
        fun _ => by simp [PutAppend_finish], fun hc => by simp at hc⟩
    | true =>
      exact ⟨true, kv1, _, h, by simp [PutAppend, h]; rfl, by simp [PutAppend_finish],
        fun hc => by simp at hc, fun _ => by simp [PutAppend_finish]⟩

/-- A `Get` whose wait times out: the reply is the one handed in with only
`WrongLeader` set. -/
theorem C13_wrong_leader_iff_witness :
    ∃ r kv3, Get Init getX reply0 timedOut [] = some (r, kv3) ∧
      r = { reply0 with WrongLeader := true } := by
  obtain ⟨ok, kv1, r, kv3, h1, h2, _, h4, _⟩ := (C13_wrong_leader_iff Init timedOut).1 getX reply0 []
  have hf : (AppendLogEntry Init (Get_entry getX) timedOut).map (fun p => p.1) = some false := by
    decide
  rw [h1] at hf
  exact ⟨r, kv3, h2, h4 (by simpa using hf)⟩

/-! ## Frame conditions of the handlers (C14, C15) -/

/-- C14: when `rf.Start` reports `isLeader = false`, `AppendLogEntry` returns false
and leaves the state as it was: no slot is made or waited on, and `results`,
`data` and `history` are unchanged. -/
theorem C14_not_leader_frame (kv : RaftKV) (entry : Op) (env : Env)
    (h : env.start.isLeader = false) :
    ∃ kv1, AppendLogEntry kv entry env = some (false, kv1) ∧ kv1 = kv ∧
      kv1.results = kv.results ∧ kv1.data = kv.data ∧ kv1.history = kv.history := by
  refine ⟨kv, ?_, rfl, rfl, rfl, rfl⟩
  unfold AppendLogEntry
  rw [if_pos h]

/-- On `Init`, a call on a server that is not the leader. -/
theorem C14_not_leader_frame_witness :
    ∃ kv1, AppendLogEntry Init putX1 notLeader = some (false, kv1) ∧ kv1 = Init ∧
      kv1.results = Init.results ∧ kv1.data = Init.data ∧ kv1.history = Init.history :=
  C14_not_leader_frame Init putX1 notLeader rfl

theorem AppendLogEntry_data (kv : RaftKV) (entry : Op) (env : Env) :
    ∃ ok kv1 kvL, AppendLogEntry kv entry env = some (ok, kv1) ∧
      Loop kv env.commits = some kvL ∧
      (env.start.isLeader = true → kv1.data = kvL.data ∧ kv1.history = kvL.history) ∧
      (env.start.isLeader = false → kv1 = kv) := by
  obtain ⟨kvL, hL, hLd, hLh⟩ := Loop_some env.commits kv
  obtain ⟨kvS, hS, hSd, hSh⟩ := Loop_some env.commits (AppendLogEntry_slot kv env.start.index)
  obtain ⟨hd0, hh0, _⟩ := AppendLogEntry_slot_frame kv env.start.index
  have hc := applyAll_congr (env.commits.map fun m => m.Command)
    (AppendLogEntry_slot kv env.start.index) kv hd0 hh0
  obtain ⟨hfd, hfh⟩ := AppendLogEntry_select_frame kvS env.start.index env.timerFirst
  cases hl : env.start.isLeader with
  | false =>
    exact ⟨false, kv, kvL, by simp [AppendLogEntry, hl], hL, fun hc => by simp at hc,
      fun _ => rfl⟩
  | true =>
    refine ⟨AppendLogEntry_result entry env.start
        (AppendLogEntry_select kvS env.start.index env.timerFirst).1,
      (AppendLogEntry_select kvS env.start.index env.timerFirst).2, kvL,
      by simp [AppendLogEntry, hl, hS], hL, fun _ => ⟨?_, ?_⟩, fun hc => by simp at hc⟩
    · rw [hfd, hSd, hc.1, hLd]
    · rw [hfh, hSh, hc.2, hLh]

/-- C15: the handlers never write `data`.  Each atomic handler step (slot
lookup, `select`, the locked region of `Get`) leaves `data` as it is; after a
whole call of `AppendLogEntry`, `PutAppend` or `Get`, whatever its outcome,
`data` is what `Loop` alone leaves on the messages committed meanwhile, and is
the `data` before the call when none was; and a `Loop` step that changes `data`
is one where `CheckDuplicate` returned false and `Apply` made the change. -/
theorem C15_handlers_frame_data (kv : RaftKV) :
    (∀ index, (AppendLogEntry_slot kv index).data = kv.data) ∧
    (∀ index t, (AppendLogEntry_select kv index t).2.data = kv.data) ∧
    (∀ args reply ok, (Get_finish kv args reply ok).2.data = kv.data) ∧
    (∀ entry env, ∃ ok kv1 kvL, AppendLogEntry kv entry env = some (ok, kv1) ∧
      Loop kv env.commits = some kvL ∧
      (env.start.isLeader = true → kv1.data = kvL.data) ∧
      (env.start.isLeader = false ∨ env.commits = [] → kv1.data = kv.data)) ∧
    (∀ args reply env, ∃ r kv1 kvL, PutAppend kv args reply env = some (r, kv1) ∧
      Loop kv env.commits = some kvL ∧
      (env.start.isLeader = true → kv1.data = kvL.data) ∧
      (env.start.isLeader = false ∨ env.commits = [] → kv1.data = kv.data)) ∧
    (∀ args reply env later, ∃ ok kv1 r kv3 kvL,
      AppendLogEntry kv (Get_entry args) env = some (ok, kv1) ∧
      Get kv args reply env later = some (r, kv3) ∧ Loop kv1 later = some kvL ∧
      (ok = false → kv3.data = kv1.data) ∧ (ok = true → kv3.data = kvL.data) ∧
      (env.start.isLeader = false ∨ env.commits = [] → later = [] → kv3.data = kv.data)) ∧
    (∀ msg, ∃ kv1, LoopStep kv msg = some kv1 ∧
      (kv1.data ≠ kv.data →
        CheckDuplicate kv msg.Command = false ∧ kv1.data = (Apply kv msg.Command).data)) := by
  have hA : ∀ entry env, ∃ ok kv1 kvL, AppendLogEntry kv entry env = some (ok, kv1) ∧
      Loop kv env.commits = some kvL ∧
      (env.start.isLeader = true → kv1.data = kvL.data) ∧
      (env.start.isLeader = false ∨ env.commits = [] → kv1.data = kv.data) := by
    intro entry env
    obtain ⟨ok, kv1, kvL, h1, h2, h3, h4⟩ := AppendLogEntry_data kv entry env
    refine ⟨ok, kv1, kvL, h1, h2, fun hl => (h3 hl).1, ?_⟩
    rintro (hl | hc)
    · rw [h4 hl]
    · cases hl : env.start.isLeader with
      | false => rw [h4 hl]
      | true =>
        rw [(h3 hl).1]
        rw [hc] at h2
        simp only [Loop] at h2
        rw [← Option.some.inj h2]
  refine ⟨fun index => (AppendLogEntry_slot_frame kv index).1,
    fun index t => (AppendLogEntry_select_frame kv index t).1, ?_, hA, ?_, ?_, ?_⟩
  · intro args reply ok
    unfold Get_finish
    split <;> rfl
  · intro args reply env
    obtain ⟨ok, kv1, kvL, h1, h2, h3, h4⟩ := hA (PutAppend_entry args) env
    exact ⟨PutAppend_finish reply ok, kv1, kvL, by simp [PutAppend, h1], h2, h3, h4⟩
  · intro args reply env later
    obtain ⟨ok, kv1, kvL, h1, _, _, h4⟩ := hA (Get_entry args) env
    obtain ⟨kv2, hk2, _, _⟩ := Loop_some later kv1
    cases ok with
    | false =>
      refine ⟨false, kv1, (Get_finish kv1 args reply false).1,
        (Get_finish kv1 args reply false).2, kv2, h1, by simp [Get, h1], hk2,
        fun _ => by simp [Get_finish], fun hc => by simp at hc, ?_⟩
      intro he _
      rw [← h4 he]
      simp [Get_finish]
    | true =>
      refine ⟨true, kv1, (Get_finish kv2 args reply true).1,
        (Get_finish kv2 args reply true).2, kv2, h1, by simp [Get, h1, hk2], hk2,
        fun hc => by simp at hc, fun _ => by simp [Get_finish], ?_⟩
      intro he hl
      rw [hl] at hk2
      simp only [Loop] at hk2
      rw [← h4 he, Option.some.inj hk2]
      simp [Get_finish]
  · intro msg
    obtain ⟨kv1, hk, hd, _⟩ := LoopStep_some kv msg
    refine ⟨kv1, hk, fun hne => ?_⟩
    cases hc : CheckDuplicate kv msg.Command with
    | true =>
      rw [applyIfNew_of_duplicate kv _ hc] at hd
      exact absurd hd hne
    | false =>
      rw [applyIfNew_of_new kv _ hc] at hd
      exact ⟨rfl, hd⟩

/-- A `Put` whose wait times out on `stateX1`: `data` is as before the call. -/
theorem C15_handlers_frame_data_witness :
    ∃ ok kv1, AppendLogEntry stateX1 putX1 timedOut = some (ok, kv1) ∧
      kv1.data = stateX1.data := by
  obtain ⟨ok, kv1, _, h1, _, _, h4⟩ := (C15_handlers_frame_data stateX1).2.2.2.1 putX1 timedOut
  exact ⟨ok, kv1, h1, h4 (Or.inr rfl)⟩

/-! ## At-most-once application and the record of `Get` (C16) -/

/-- C16, the code at the failing input: in the run `doubleApply` the slow `Get`
handler's `AppendLogEntry` returned true; `Append("x","v")` of request (7, 4) is
not a duplicate at index 3 and is applied, giving `data["x"] = "v"` and
`history[7] = 4`; the handler's record of line 112 puts `history[7]` back to 3;
so the retry at index 4 is not a duplicate either and is applied again:
`data["x"] = "vv"`. -/
theorem C16_get_record_breaks_at_most_once :
    doubleApply.map (fun t =>
      (t.1, CheckDuplicate t.2.1 append74, t.2.2.1.data "x", t.2.2.1.history 7)) =
      some (true, false, some "v", some 4) ∧
    doubleApply.map (fun t =>
      (t.2.2.2.1.history 7, CheckDuplicate t.2.2.2.1 append74, t.2.2.2.2.data "x")) =
      some (some 3, false, some "vv") := by
  decide

/-! ## The registry never blocks `Loop` (C17) -/

theorem run_some (evs : List Event) (kv : RaftKV) : ∃ kv1, run kv evs = some kv1 := by
  induction evs generalizing kv with
  | nil => exact ⟨kv, rfl⟩
  | cons ev rest ih =>
    have hstep : ∃ kv1, step kv ev = some kv1 := by
      cases ev with
      | commit msg =>
        obtain ⟨kv1, hk, _⟩ := LoopStep_some kv msg
        exact ⟨kv1, hk⟩
      | lookup index => exact ⟨_, rfl⟩
      | receive index => exact ⟨_, rfl⟩
    obtain ⟨kv1, hk⟩ := hstep
    obtain ⟨kv2, hk2⟩ := ih kv1
    exact ⟨kv2, by simp [run, hk, hk2]⟩

/-- C17: a slot holds at most one pending command (the buffer of a channel made
with capacity one); after the non-blocking drain the buffer is empty, so the
send of line 169 goes through; a waiter's receive between the drain and the
send finds nothing and changes nothing; hence every `Loop` step completes, and
so does every sequence of `Loop` steps, slot lookups and waiter receives. -/
theorem C17_install_never_blocks :
    (∀ (kv : RaftKV) (index : Int) (ch : Chan), kv.results index = some ch →
      ch.toList.length ≤ 1) ∧
    (∀ (ch : Chan) (op : Op), chanDrain ch = none ∧
      chanSend (chanDrain ch) op = some (some op)) ∧
    (∀ (kv : RaftKV) (index : Int) (ch : Chan),
      AppendLogEntry_select
        { kv with results := Function.update kv.results index (some (chanDrain ch)) }
        index false =
      (Arrival.timeout,
        { kv with results := Function.update kv.results index (some (chanDrain ch)) })) ∧
    (∀ (kv : RaftKV) (msg : ApplyMsg), ∃ kv1, LoopStep kv msg = some kv1) ∧
    (∀ evs : List Event, ∃ kv1, run Init evs = some kv1) := by
  refine ⟨?_, ?_, ?_, ?_, fun evs => run_some evs Init⟩
  · intro kv index ch _
    cases ch <;> simp
  · intro ch op
    cases ch <;> exact ⟨rfl, rfl⟩
  · intro kv index ch
    have hd : chanDrain ch = none := by cases ch <;> rfl
    simp [AppendLogEntry_select, hd]
  · intro kv msg
    obtain ⟨kv1, hk, _⟩ := LoopStep_some kv msg
    exact ⟨kv1, hk⟩

/-- From `Init`: a lookup of slot 1, two commits at index 1 with no receive in
between, a receive, a commit at an index nobody waits on. -/
theorem C17_install_never_blocks_witness :
    ∃ kv1, run Init [Event.lookup 1, Event.commit { Index := 1, Command := putX1 },
      Event.commit { Index := 1, Command := putX2 }, Event.receive 1,
      Event.commit { Index := 2, Command := appendA }] = some kv1 :=
  C17_install_never_blocks.2.2.2.2 _

/-! ## Replica agreement (C18) -/

/-- C18: two servers with equal `data` and equal `history`, whatever their
`results`, that process the same committed messages with `Loop` both complete
and end with equal `data` and equal `history`. -/
theorem C18_replica_agreement (kvA kvB : RaftKV) (L : List ApplyMsg)
    (hd : kvA.data = kvB.data) (hh : kvA.history = kvB.history) :
    ∃ a b, Loop kvA L = some a ∧ Loop kvB L = some b ∧ a.data = b.data ∧
      a.history = b.history := by
  obtain ⟨a, ha, had, hah⟩ := Loop_some L kvA
  obtain ⟨b, hb, hbd, hbh⟩ := Loop_some L kvB
  have hc := applyAll_congr (L.map fun m => m.Command) kvA kvB hd hh
  exact ⟨a, b, ha, hb, by rw [had, hbd, hc.1], by rw [hah, hbh, hc.2]⟩

/-- A leader with waiters on slots 1 and 3 and a follower with none process
`replayLog`. -/
theorem C18_replica_agreement_witness :
    ∃ a b, Loop (AppendLogEntry_slot (AppendLogEntry_slot Init 1) 3) replayLog = some a ∧
      Loop Init replayLog = some b ∧ a.data = b.data ∧ a.history = b.history :=
  C18_replica_agreement (AppendLogEntry_slot (AppendLogEntry_slot Init 1) 3) Init replayLog
    rfl rfl

/-! ## Commands of another kind (C19) -/

theorem Apply_data_other_kind (kv : RaftKV) (op : Op) (hp : op.Kind ≠ OP_PUT)
    (ha : op.Kind ≠ OP_APPEND) :
    (Apply kv op).data = kv.data ∧ (Apply kv op).history op.SessionID = some op.ReqID := by
  simp [Apply, hp, ha]

/-- A coordinator that looks its slot up, sees its own command committed there
and receives it: the call returns true, and `data` and `history` are what lines
157-159 leave. -/
theorem AppendLogEntry_own_commit (kv : RaftKV) (op : Op) (index : Int) :
    ∃ kv1 kv2, LoopStep (AppendLogEntry_slot kv index) { Index := index, Command := op } =
        some kv1 ∧
      kv1.results index = some (some op) ∧
      AppendLogEntry kv op (leaderAt index [{ Index := index, Command := op }]) =
        some (true, kv2) ∧
      kv1.data = (applyIfNew kv op).data ∧ kv1.history = (applyIfNew kv op).history ∧
      kv2.data = (applyIfNew kv op).data ∧ kv2.history = (applyIfNew kv op).history := by
  obtain ⟨hd0, hh0, ch, hch⟩ := AppendLogEntry_slot_frame kv index
  obtain ⟨kv1, hk, hr⟩ :=
    LoopStep_slot_some (AppendLogEntry_slot kv index) { Index := index, Command := op } ch hch
  obtain ⟨kv1b, hkb, hd, hh⟩ :=
    LoopStep_some (AppendLogEntry_slot kv index) { Index := index, Command := op }
  rw [hk] at hkb
  have hsame : kv1b = kv1 := (Option.some.inj hkb).symm
  subst hsame
  have hcong := applyIfNew_congr (AppendLogEntry_slot kv index) kv op hd0 hh0
  have hr1 : kv1b.results index = some (some op) := hr
  have hd1 : kv1b.data = (applyIfNew kv op).data := hd.trans hcong.1
  have hh1 : kv1b.history = (applyIfNew kv op).history := hh.trans hcong.2
  obtain ⟨hfd, hfh⟩ := AppendLogEntry_select_frame kv1b index false
  refine ⟨kv1b, (AppendLogEntry_select kv1b index false).2, hk, hr1, ?_, hd1, hh1,
    hfd.trans hd1, hfh.trans hh1⟩
  simp [AppendLogEntry, leaderAt, Loop, hk, AppendLogEntry_select, hr1, AppendLogEntry_result]

/-- C19 as stated fails: in the run `lateLookup` the command of kind "Delete" is
not rejected, leaves `data` unchanged and sets `history[9] = 1`, but slot 1 did
not exist when `Loop` processed it, so the slot is created empty, the command
is not published, and its submitter's `AppendLogEntry` returns false: the reply
has `WrongLeader = true`. -/
theorem C19_counterexample :
    CheckDuplicate Init (PutAppend_entry deleteArgs) = false ∧
    lateLookup.map (fun t => (t.1.results 1, t.1.data "x", t.1.history 9, t.2.1,
      t.2.2.WrongLeader)) = some (some none, none, some 1, false, true) := by
  decide

/-- C19 amended: a committed entry that `CheckDuplicate` does not reject and whose
kind is neither "Put" nor "Append" leaves `data` unchanged and sets
`history[SessionID] = ReqID`.  When the slot of its index exists as `Loop`
processes it, it is published there and a submitter receiving from the slot gets
true from `AppendLogEntry`; when the slot does not exist, `Loop` creates it empty,
nothing is published and a receive there ends by the timer.  A submitter that
looks its slot up before the commit gets true, and `PutAppend`, which copies
`args.Op` into the command as it is, then replies success. -/
theorem C19_other_kind (kv : RaftKV) (op : Op) (index : Int)
    (hnew : CheckDuplicate kv op = false) (hp : op.Kind ≠ OP_PUT)
    (ha : op.Kind ≠ OP_APPEND) :
    (∃ kv1, LoopStep kv { Index := index, Command := op } = some kv1 ∧
      kv1.data = kv.data ∧ kv1.history op.SessionID = some op.ReqID ∧
      (∀ ch, kv.results index = some ch →
        kv1.results index = some (some op) ∧
        ∀ start : StartReply, start.isLeader = true →
          AppendLogEntry_result op start (AppendLogEntry_select kv1 index false).1 = true) ∧
      (kv.results index = none →
        kv1.results index = some none ∧
        ∀ start : StartReply,
          AppendLogEntry_result op start (AppendLogEntry_select kv1 index false).1 = false)) ∧
    (∃ kv2, AppendLogEntry kv op (leaderAt index [{ Index := index, Command := op }]) =
        some (true, kv2) ∧
      kv2.data = kv.data ∧ kv2.history op.SessionID = some op.ReqID) ∧
    (∀ (args : PutAppendArgs) (reply : PutAppendReply), PutAppend_entry args = op →
      op.Kind = args.Op ∧
      ∃ r kv2, PutAppend kv args reply (leaderAt index [{ Index := index, Command := op }]) =
          some (r, kv2) ∧
        r.WrongLeader = false ∧ r.Err = OK ∧ kv2.data = kv.data) := by
  obtain ⟨hAd, hAh⟩ := Apply_data_other_kind kv op hp ha
  obtain ⟨kv1, hk, hd, hh⟩ := LoopStep_some kv { Index := index, Command := op }
  obtain ⟨kvS, kv2, _, _, hcall, _, _, h2d, h2h⟩ := AppendLogEntry_own_commit kv op index
  rw [applyIfNew_of_new kv op hnew] at h2d h2h
  refine ⟨⟨kv1, hk, ?_, ?_, ?_, ?_⟩, ⟨kv2, hcall, h2d.trans hAd, by rw [h2h]; exact hAh⟩, ?_⟩
  · rw [hd]
    show (applyIfNew kv op).data = kv.data
    rw [applyIfNew_of_new kv op hnew]
    exact hAd
  · rw [hh]
    show (applyIfNew kv op).history op.SessionID = some op.ReqID
    rw [applyIfNew_of_new kv op hnew]
    exact hAh
  · intro ch hch
    obtain ⟨kv1b, hkb, hr⟩ := LoopStep_slot_some kv { Index := index, Command := op } ch hch
    rw [hk] at hkb
    have hr1 : kv1.results index = some (some op) := by
      rw [Option.some.inj hkb]
      exact hr
    refine ⟨hr1, fun start hl => ?_⟩
    rw [AppendLogEntry_result_true_iff]
    exact ⟨hl, by simp [AppendLogEntry_select, hr1]⟩
  · intro hn
    obtain ⟨kv1b, hkb, hr⟩ := LoopStep_slot_none kv { Index := index, Command := op } hn
    rw [hk] at hkb
    have hr1 : kv1.results index = some none := by
      rw [Option.some.inj hkb]
      exact hr
    refine ⟨hr1, fun start => ?_⟩
    cases hres : AppendLogEntry_result op start (AppendLogEntry_select kv1 index false).1 with
    | false => rfl
    | true =>
      rw [AppendLogEntry_result_true_iff] at hres
      simp [AppendLogEntry_select, hr1] at hres
  · intro args reply harg
    refine ⟨by rw [← harg]; rfl, PutAppend_finish reply true, kv2, ?_, ?_, ?_, h2d.trans hAd⟩
    · simp [PutAppend, harg, hcall]
    · simp [PutAppend_finish]
    · simp [PutAppend_finish]

/-- The command `PutAppend` builds for `args.Op = "Delete"`, committed at index 1:
on `Init`, where slot 1 does not exist, it is recorded and not published; with
its submitter waiting it is acknowledged. -/
theorem C19_other_kind_witness :
    CheckDuplicate Init (PutAppend_entry deleteArgs) = false ∧
    (∃ kv1, LoopStep Init { Index := 1, Command := PutAppend_entry deleteArgs } = some kv1 ∧
      kv1.data = Init.data ∧
      kv1.history (PutAppend_entry deleteArgs).SessionID =
        some (PutAppend_entry deleteArgs).ReqID ∧
      kv1.results 1 = some none) ∧
    (∃ kv2, AppendLogEntry Init (PutAppend_entry deleteArgs)
        (leaderAt 1 [{ Index := 1, Command := PutAppend_entry deleteArgs }]) =
        some (true, kv2) ∧
      kv2.data = Init.data ∧
      kv2.history (PutAppend_entry deleteArgs).SessionID =
        some (PutAppend_entry deleteArgs).ReqID) := by
  obtain ⟨⟨kv1, h1, h2, h3, _, h5⟩, h6, _⟩ :=
    C19_other_kind Init (PutAppend_entry deleteArgs) 1 (by decide) (by decide) (by decide)
  exact ⟨by decide, ⟨kv1, h1, h2, h3, (h5 rfl).1⟩, h6⟩

end raftkv
